import Mathlib

/-!
hhfifo, a client for System V message queues.

A shallow embedding of `sysVfifo.go` and `sem.go`.

* Machine integers are `Nat`/`Int`; conversions between Go integer types are
  written out (`toInt64`, `toUintptr`, `addInt32`).
* The kernel facility reached through `syscall.Syscall` is a parameter
  (`Kernel σ`): every operation of the client is defined for an arbitrary
  facility, and `sysv` is one model of the facility (one System V queue,
  messages delivered whole and in FIFO order per type).
* A call that never returns (a receive that blocks for ever, a spin loop that
  never gets a permit) is `none`; loops take fuel.
* Every facility call and every semaphore operation is recorded in a trace.
* The operations are run by one goroutine; the semaphore is also modelled under
  interleaving (`SemState`), one atomic operation a step.
-/

namespace hhfifo

/-! ## Constants of `sysVfifo.go` -/

abbrev IPC_CREAT : Nat := 0o1000
abbrev IPC_EXCL : Nat := 0o2000
abbrev IPC_RMID : Nat := 0
abbrev IPC_SET : Nat := 1
abbrev IPC_STAT : Nat := 2
abbrev IPC_INFO : Nat := 3
abbrev IPC_NOWAIT : Nat := 0o4000

abbrev MSG_NOERROR : Nat := 0o10000
abbrev MSG_EXCEPT : Nat := 0o20000
abbrev MSG_COPY : Nat := 0o40000

/-! ## Values of the Go `syscall` package

The source names these codes and does not declare them. They are the numbers of
the package `syscall` on 64-bit Linux (amd64 and arm64), the platform the
comments of the source name. -/

/-- The type `syscall.Errno` (a `uintptr`). -/
abbrev Errno := Nat

abbrev EPERM : Errno := 1
abbrev ENOENT : Errno := 2
abbrev EINTR : Errno := 4
abbrev E2BIG : Errno := 7
abbrev EAGAIN : Errno := 11
abbrev EACCES : Errno := 13
abbrev EFAULT : Errno := 14
abbrev EEXIST : Errno := 17
abbrev EINVAL : Errno := 22
abbrev ENOSPC : Errno := 28
abbrev ENOMSG : Errno := 42
abbrev EIDRM : Errno := 43

/-! ## Integer conversions -/

/-- The conversion `int(x)` of a `uintptr` on a 64-bit target: the same 64
bits read as a signed number. -/
def toInt64 (n : Nat) : Int :=
  if n % 2 ^ 64 < 2 ^ 63 then ((n % 2 ^ 64 : Nat) : Int) else ((n % 2 ^ 64 : Nat) : Int) - 2 ^ 64

/-- The conversion `uintptr(x)` of an `int` on a 64-bit target. -/
def toUintptr (i : Int) : Nat := (i % 2 ^ 64).toNat

/-- The result of `atomic.AddInt32(&c, d)`: the sum, wrapped to 32 signed bits. -/
def addInt32 (c d : Int) : Int := (c + d + 2 ^ 31) % 2 ^ 32 - 2 ^ 31

/-- The values an `int32` can hold. -/
def inInt32 (c : Int) : Prop := -2 ^ 31 ≤ c ∧ c < 2 ^ 31

instance (c : Int) : Decidable (inInt32 c) := by unfold inInt32; infer_instance

/-! ## Errors -/

/-- The values of type `error` the package produces: the two package-level
sentinels made by `errors.New`, and the fresh values made by `fmt.Errorf`. -/
inductive GoError where
  | ErrNoMessage
  | ErrQueueDestroyed
  | errorf (text : String)
  deriving DecidableEq, Repr

/-- The method `Error()`. -/
def GoError.Error : GoError → String
  | GoError.ErrNoMessage => "no message available"
  | GoError.ErrQueueDestroyed => "message queue destroyed"
  | GoError.errorf text => text

/-- The map literal `errMap` of `handleErrno`. -/
def errMap : List (Errno × String) :=
  [ (ENOMSG, "no message of desired type"),
    (E2BIG, "message too large"),
    (EACCES, "permission denied"),
    (EIDRM, "queue was removed"),
    (ENOSPC, "queue limit reached"),
    (ENOENT, "queue does not exist"),
    (EINVAL, "invalid parameters"),
    (EFAULT, "invalid ds buffer segment address"),
    (EPERM, "permission denied") ]

/-- The verb `%v` applied to the variadic slice `args`: the elements, each
already rendered, separated by blanks between square brackets. -/
def fmtArgs (args : List String) : String :=
  "[" ++ " ".intercalate args ++ "]"

/-- The function `handleErrno`. `strerror` is `syscall.Errno.Error`, the
facility's own description of a code; `args` holds the rendering of each
variadic argument. -/
def handleErrno (strerror : Errno → String) (errno : Errno) (operation : String)
    (args : List String) : Option GoError :=
  if errno = 0 then none
  else
    let desc := match errMap.lookup errno with
      | some d => d
      | none => strerror errno
    let ctx := if args.length > 0 then " [ctx: " ++ fmtArgs args ++ "]" else ""
    some (GoError.errorf
      (operation ++ " failed: " ++ desc ++ " (code=" ++ toString (toInt64 errno) ++ ")" ++ ctx))

/-- The description the specification's table gives a code: the nine mapped
codes, and the facility's own description for every other code. -/
def specDescription (strerror : Errno → String) (errno : Errno) : String :=
  if errno = ENOMSG then "no message of desired type"
  else if errno = E2BIG then "message too large"
  else if errno = EACCES then "permission denied"
  else if errno = EPERM then "permission denied"
  else if errno = EIDRM then "queue was removed"
  else if errno = ENOSPC then "queue limit reached"
  else if errno = ENOENT then "queue does not exist"
  else if errno = EINVAL then "invalid parameters"
  else if errno = EFAULT then "invalid ds buffer segment address"
  else strerror errno

/-! ## Message buffers and the buffer pool -/

/-- A byte of a payload. -/
abbrev Byte := Fin 256

/-- The builtin `copy(dst, src)`: the contents of `dst` afterwards. -/
def copyBytes (dst src : List Byte) : List Byte :=
  src.take dst.length ++ dst.drop src.length

/-- The struct `sysVsdMsg`: `mtype int64` and `mtext [1024]byte`. -/
structure sysVsdMsg where
  mtype : Int
  mtext : List Byte
  mtext_len : mtext.length = 1024

/-- The composite literal `sysVsdMsg{}`. -/
def sysVsdMsg.zero : sysVsdMsg := ⟨0, List.replicate 1024 0, List.length_replicate 1024 0⟩

/-- The assignment `m.mtype = t`. -/
def sysVsdMsg.setType (m : sysVsdMsg) (t : Int) : sysVsdMsg := ⟨t, m.mtext, m.mtext_len⟩

/-- The statement `copy(m.mtext[:], src)`. -/
def sysVsdMsg.copyIn (m : sysVsdMsg) (src : List Byte) : sysVsdMsg :=
  ⟨m.mtype, copyBytes m.mtext src, by
    have h := m.mtext_len
    simp only [copyBytes, List.length_append, List.length_take, List.length_drop]
    omega⟩

/-- The `sync.Pool` of the client, run by one goroutine: the values put back,
last first. Its `New` returns `sysVsdMsg{}`. -/
abbrev Pool := List sysVsdMsg

/-- The call `pool.Get().(sysVsdMsg)`. -/
def Pool.Get : Pool → sysVsdMsg × Pool
  | [] => (sysVsdMsg.zero, [])
  | m :: rest => (m, rest)

/-- The call `pool.Put(m)`. -/
def Pool.Put (p : Pool) (m : sysVsdMsg) : Pool := m :: p

/-! ## The facility -/

/-- A facility call as `syscall.Syscall` issues it: the trap and its numeric
arguments. The buffer a pointer argument refers to is not part of the call.
A signed argument (`cfg.Key`, the flags of `msgget`, `config.MsgType`) is
converted to `uintptr` by the source and read back as a signed number by the
facility, bit for bit; it is kept as the signed number. -/
inductive Call where
  | msgget (key : Int) (msgflg : Int)
  | msgctl (msqid : Nat) (cmd : Nat)
  | msgsnd (msqid : Nat) (msgsz : Nat) (msgflg : Nat)
  | msgrcv (msqid : Nat) (msgsz : Nat) (msgtyp : Int) (msgflg : Nat)
  deriving DecidableEq, Repr

/-- What a run records: facility calls, and the calls of `Acquire` and
`Release` that returned. -/
inductive Event where
  | sys (c : Call)
  | acquire
  | release
  deriving DecidableEq, Repr

/-- A facility with states `σ`: what each call returns (`r1` and the errno,
and for a receive the buffer as the facility leaves it) and the state
afterwards; `none` is a call that never returns. The arguments are those of
the system call, in its order, with the buffer in place of its address:
`msgget key msgflg`, `msgctl msqid cmd`, `msgsnd msqid buf msgsz msgflg`,
`msgrcv msqid buf msgsz msgtyp msgflg`. -/
structure Kernel (σ : Type) where
  msgget : Int → Int → σ → Option ((Nat × Errno) × σ)
  msgctl : Nat → Nat → σ → Option (Errno × σ)
  msgsnd : Nat → sysVsdMsg → Nat → Nat → σ → Option (Errno × σ)
  msgrcv : Nat → sysVsdMsg → Nat → Int → Nat → σ → Option ((Nat × Errno × sysVsdMsg) × σ)

/-- The facility's state and the events recorded so far. -/
structure World (σ : Type) where
  kern : σ
  trace : List Event

/-- The world after one more event. -/
def World.log {σ : Type} (w : World σ) (k : σ) (e : Event) : World σ :=
  ⟨k, w.trace ++ [e]⟩

/-! ## The semaphore of `sem.go` -/

/-- The struct `highPerfSem`. -/
structure highPerfSem where
  counter : Int
  deriving DecidableEq, Repr

/-- The function `newHighPerfSem`. -/
def newHighPerfSem (permits : Int) : highPerfSem := ⟨permits⟩

/-- The method `Acquire` run with no other goroutine: `runtime.Gosched()`
returns at once, and the fuel bounds the iterations of the loop. -/
def highPerfSem.Acquire : Nat → highPerfSem → Option highPerfSem
  | 0, _ => none
  | fuel + 1, s =>
    let c1 := addInt32 s.counter (-1)
    if c1 ≥ 0 then some ⟨c1⟩
    else highPerfSem.Acquire fuel ⟨addInt32 c1 1⟩

/-- The method `Release`. -/
def highPerfSem.Release (s : highPerfSem) : highPerfSem := ⟨addInt32 s.counter 1⟩

/-! ## The client of `sysVfifo.go` -/

/-- The struct `Config`. -/
structure Config where
  Key : Int
  MaxSize : Int
  MaxSizeQ : Int
  MsgType : Int
  Block : Bool
  MaxConns : Int
  Flags : Int
  Perm : Nat
  deriving DecidableEq, Repr

/-- The struct `MessageQueue`. The mutex `mu` is left out: in a run of one
goroutine it is free when an operation starts and when it returns. -/
structure MessageQueue where
  id : Int
  sem : highPerfSem
  pool : Pool
  config : Config

/-- How a call ends: it returns a value or it panics. -/
inductive Outcome (α : Type) where
  | ret (v : α)
  | panics

/-- The function `NewQueue`. The finalizer it registers runs only once the
client is unreachable and is not part of the run. -/
def NewQueue {σ : Type} (K : Kernel σ) (strerror : Errno → String) (cfg : Config)
    (w : World σ) : Option ((Option MessageQueue × Option GoError) × World σ) :=
  if cfg.MaxSize < 1 ∨ cfg.MaxSize > 64 * 1024 then
    some ((none, some (GoError.errorf "MaxSize must be 1-65536")), w)
  else
    let msgflg := Int.lor (Int.lor cfg.Flags IPC_CREAT) cfg.Perm
    match K.msgget cfg.Key msgflg w.kern with
    | none => none
    | some ((qid, errno), k1) =>
      let w1 := w.log k1 (Event.sys (Call.msgget cfg.Key msgflg))
      if errno ≠ 0 then
        some ((none, handleErrno strerror errno "msgget" [toString cfg.Key]), w1)
      else
        some ((some ⟨toInt64 qid, newHighPerfSem cfg.MaxConns, [], cfg⟩, none), w1)

/-- The method `Close`. -/
def Close {σ : Type} (K : Kernel σ) (strerror : Errno → String) (q : MessageQueue)
    (w : World σ) : Option (Option GoError × MessageQueue × World σ) :=
  match K.msgctl (toUintptr q.id) IPC_RMID w.kern with
  | none => none
  | some (errno, k1) =>
    let w1 := w.log k1 (Event.sys (Call.msgctl (toUintptr q.id) IPC_RMID))
    if errno ≠ 0 then some (handleErrno strerror errno "msgctl(RMID)" [], q, w1)
    else some (none, q, w1)

/-- The method `Enqueue`. The deferred `pool.Put(msgStruct)` puts back the
buffer as it is after the copy. -/
def Enqueue {σ : Type} (K : Kernel σ) (strerror : Errno → String) (q : MessageQueue)
    (msg : List Byte) (w : World σ) : Option (Option GoError × MessageQueue × World σ) :=
  if (msg.length : Int) > q.config.MaxSize then
    some (some (GoError.errorf ("message size " ++ toString msg.length ++ " exceeds limit "
      ++ toString q.config.MaxSize)), q, w)
  else
    let (got, pool1) := q.pool.Get
    let msgStruct := (got.setType q.config.MsgType).copyIn msg
    match K.msgsnd (toUintptr q.id) msgStruct msg.length IPC_NOWAIT w.kern with
    | none => none
    | some (errno, k1) =>
      let w1 := w.log k1 (Event.sys (Call.msgsnd (toUintptr q.id) msg.length IPC_NOWAIT))
      some (handleErrno strerror errno "msgsnd" [],
        ⟨q.id, q.sem, pool1.Put msgStruct, q.config⟩, w1)

/-- The loop of `Dequeue` that repeats the receive while it reports `EINTR`:
the `r1`, the errno and the buffer of the last attempt. -/
def recvLoop {σ : Type} (K : Kernel σ) (msqid msgsz : Nat) (msgtyp : Int) (msgflg : Nat) :
    Nat → sysVsdMsg → World σ → Option ((Nat × Errno × sysVsdMsg) × World σ)
  | 0, _, _ => none
  | fuel + 1, msg, w =>
    match K.msgrcv msqid msg msgsz msgtyp msgflg w.kern with
    | none => none
    | some ((n, errno, msg1), k1) =>
      let w1 := w.log k1 (Event.sys (Call.msgrcv msqid msgsz msgtyp msgflg))
      if errno ≠ EINTR then some ((n, errno, msg1), w1)
      else recvLoop K msqid msgsz msgtyp msgflg fuel msg1 w1

/-- The flags `Dequeue` computes for the receive. -/
def recvFlags (cfg : Config) : Nat :=
  if !cfg.Block then MSG_NOERROR ||| IPC_NOWAIT else MSG_NOERROR

/-- The statements of `Dequeue` after the loop: what the call returns for the
`r1`, errno and buffer of the last receive. The slice expression
`msg.mtext[:dataSize]` panics when `dataSize` exceeds the 1024 bytes of the
array. -/
def dequeueResult (strerror : Errno → String) (cfg : Config) (n : Nat) (errno : Errno)
    (msg : sysVsdMsg) : Outcome (Option (List Byte) × Option GoError) :=
  if errno ≠ 0 then
    if errno = ENOMSG then Outcome.ret (none, some GoError.ErrNoMessage)
    else Outcome.ret (none, handleErrno strerror errno "msgrcv" [])
  else if n > toUintptr cfg.MaxSize then
    Outcome.ret (none, some (GoError.errorf ("message size " ++ toString n ++ " exceeds config")))
  else if n > 1024 then Outcome.panics
  else Outcome.ret (some (msg.mtext.take n), none)

/-- The method `Dequeue`. The size passed to the receive is
`unsafe.Sizeof(msg.mtext)`, 1024. The deferred `pool.Put(msg)` puts back the
buffer as it was when the `defer` statement ran; the deferred calls run on
every exit, a panic included. -/
def Dequeue {σ : Type} (K : Kernel σ) (strerror : Errno → String) (fuel : Nat)
    (q : MessageQueue) (w : World σ) :
    Option (Outcome (Option (List Byte) × Option GoError) × MessageQueue × World σ) :=
  match q.sem.Acquire fuel with
  | none => none
  | some sem1 =>
    let w1 := w.log w.kern Event.acquire
    let (msg, pool1) := q.pool.Get
    match recvLoop K (toUintptr q.id) 1024 q.config.MsgType (recvFlags q.config) fuel msg w1 with
    | none => none
    | some ((n, errno, msg1), w2) =>
      some (dequeueResult strerror q.config n errno msg1,
        ⟨q.id, sem1.Release, pool1.Put msg, q.config⟩,
        w2.log w2.kern Event.release)

/-! ## A model of the facility: one System V message queue

The kernel is not part of the repository. `sysv` is the facility the
specification assumes, after msgget(2), msgsnd(2), msgrcv(2) and msgctl(2), with
room for one queue: a message is stored and delivered whole, a receive takes
the oldest message of the type asked for, a receive with `MSG_NOERROR` cuts a
message to the size it was given, a full queue refuses a non-blocking send
with `EAGAIN`, and a queue that was removed refuses every call with `EINVAL`. -/

/-- A message as the queue stores it. -/
structure Message where
  mtype : Int
  mtext : List Byte
  deriving DecidableEq, Repr

/-- Modelled from the spec: the state of the facility, which is the kernel and not
part of the repository: whether the queue exists, its key and identifier, the
messages it holds (oldest first) and its limits. `adjacent` is the caller's
memory that follows a message buffer, which a send longer than the buffer
reads. -/
structure SysV where
  exist : Bool
  key : Int
  msqid : Nat
  msgs : List Message
  qbytes : Nat
  msgmax : Nat
  adjacent : List Byte
  deriving DecidableEq, Repr

/-- The value `r1` of a failed call: `-1` as a `uintptr`. -/
abbrev failed : Nat := 2 ^ 64 - 1

/-- The bytes the queue holds (`msg_cbytes`). -/
def SysV.cbytes (f : SysV) : Nat := (f.msgs.map fun m => m.mtext.length).sum

/-- The oldest message that satisfies `p`, and the queue without it. -/
def takeFirst (p : Message → Bool) : List Message → Option (Message × List Message)
  | [] => none
  | m :: rest =>
    if p m then some (m, rest)
    else match takeFirst p rest with
      | none => none
      | some (x, r) => some (x, m :: r)

/-- The lowest type among the messages of type at most `bound`. -/
def lowestType (bound : Int) : List Message → Option Int
  | [] => none
  | m :: rest =>
    match lowestType bound rest with
    | none => if m.mtype ≤ bound then some m.mtype else none
    | some t => if m.mtype ≤ bound ∧ m.mtype ≤ t then some m.mtype else some t

/-- Modelled from the spec: the message a receive of the facility selects (FIFO
per message type), after msgrcv(2): the oldest message for type 0, the oldest of
the type (or, with `MSG_EXCEPT`, not of the type) for a positive type, the
oldest of the lowest type up to `-msgtyp` for a negative one. -/
def selectMsg (msgtyp : Int) (msgflg : Nat) (msgs : List Message) :
    Option (Message × List Message) :=
  if msgtyp = 0 then takeFirst (fun _ => true) msgs
  else if msgtyp > 0 then
    if msgflg &&& MSG_EXCEPT ≠ 0 then takeFirst (fun m => decide (m.mtype ≠ msgtyp)) msgs
    else takeFirst (fun m => decide (m.mtype = msgtyp)) msgs
  else
    match lowestType (-msgtyp) msgs with
    | none => none
    | some t => takeFirst (fun m => decide (m.mtype = t)) msgs

/-- Modelled from the spec: the facility's create-or-open, after msgget(2): the
identifier of the queue under the key, made if absent and `IPC_CREAT` is set;
`EEXIST` under `IPC_CREAT | IPC_EXCL` when it exists, `ENOENT` when it is absent
and not to be made, `ENOSPC` when the one queue the facility has room for is
taken by another key. -/
def SysV.msgget (key msgflg : Int) (f : SysV) : Option ((Nat × Errno) × SysV) :=
  if f.exist ∧ key = f.key ∧ key ≠ 0 then
    if Int.testBit msgflg 9 ∧ Int.testBit msgflg 10 then some ((failed, EEXIST), f)
    else some ((f.msqid, 0), f)
  else if f.exist then some ((failed, ENOSPC), f)
  else if Int.testBit msgflg 9 ∨ key = 0 then
    some ((f.msqid, 0), ⟨true, key, f.msqid, [], f.qbytes, f.msgmax, f.adjacent⟩)
  else some ((failed, ENOENT), f)

/-- Modelled from the spec: the facility's remove, after msgctl(2) with a null
buffer: `IPC_RMID` removes the queue, effective at once; a queue that does not
exist is refused with `EINVAL`. -/
def SysV.msgctl (msqid cmd : Nat) (f : SysV) : Option (Errno × SysV) :=
  if ¬ f.exist ∨ msqid ≠ f.msqid then some (EINVAL, f)
  else if cmd = IPC_RMID then
    some (0, ⟨false, f.key, f.msqid, [], f.qbytes, f.msgmax, f.adjacent⟩)
  else if cmd = IPC_STAT ∨ cmd = IPC_SET then some (EFAULT, f)
  else some (EINVAL, f)

/-- Modelled from the spec: the facility's send, after msgsnd(2): the facility
reads `msgsz` bytes that start at `mtext` and stores them whole as one message
at the end of the queue. It refuses a queue that does not exist, a type below 1
or a size above the limit (`EINVAL`), memory it cannot read (`EFAULT`) and,
without waiting, a full queue (`EAGAIN`); a waiting send to a full queue does
not return. -/
def SysV.msgsnd (msqid : Nat) (buf : sysVsdMsg) (msgsz msgflg : Nat) (f : SysV) :
    Option (Errno × SysV) :=
  if ¬ f.exist ∨ msqid ≠ f.msqid then some (EINVAL, f)
  else if buf.mtype < 1 ∨ msgsz > f.msgmax then some (EINVAL, f)
  else if msgsz > (buf.mtext ++ f.adjacent).length then some (EFAULT, f)
  else if f.cbytes + msgsz > f.qbytes ∨ f.msgs.length + 1 > f.qbytes then
    if msgflg &&& IPC_NOWAIT ≠ 0 then some (EAGAIN, f) else none
  else
    some (0, ⟨f.exist, f.key, f.msqid,
      f.msgs ++ [⟨buf.mtype, (buf.mtext ++ f.adjacent).take msgsz⟩],
      f.qbytes, f.msgmax, f.adjacent⟩)

/-- Modelled from the spec: the facility's receive, after msgrcv(2): the facility
takes the selected message off the queue and writes its type and at most `msgsz`
of its bytes into the buffer. It refuses a queue that does not exist
(`EINVAL`), reports `ENOMSG` without waiting when no message is selected (a
waiting receive then does not return), and `E2BIG` for a longer message unless
`MSG_NOERROR` is set. -/
def SysV.msgrcv (msqid : Nat) (buf : sysVsdMsg) (msgsz : Nat) (msgtyp : Int) (msgflg : Nat)
    (f : SysV) : Option ((Nat × Errno × sysVsdMsg) × SysV) :=
  if ¬ f.exist ∨ msqid ≠ f.msqid then some ((failed, EINVAL, buf), f)
  else
    match selectMsg msgtyp msgflg f.msgs with
    | none => if msgflg &&& IPC_NOWAIT ≠ 0 then some ((failed, ENOMSG, buf), f) else none
    | some (m, rest) =>
      if m.mtext.length > msgsz ∧ msgflg &&& MSG_NOERROR = 0 then some ((failed, E2BIG, buf), f)
      else
        let data := m.mtext.take msgsz
        some ((data.length, 0, (buf.setType m.mtype).copyIn data),
          ⟨f.exist, f.key, f.msqid, rest, f.qbytes, f.msgmax, f.adjacent⟩)

/-- Modelled from the spec: the facility the client calls, with room for one
queue. -/
def sysv : Kernel SysV := ⟨SysV.msgget, SysV.msgctl, SysV.msgsnd, SysV.msgrcv⟩

/-- What the facility stores for a payload sent from a buffer. -/
def storedMessage (cfg : Config) (buf : sysVsdMsg) (P adj : List Byte) : Message :=
  ⟨cfg.MsgType, ((copyBytes buf.mtext P) ++ adj).take P.length⟩

/-- What `syscall.Errno.Error` returns for a code its table of texts has no
entry for (on Linux, every code above 133): "errno " and the decimal of
`int(e)`. It stands in for the method in the concrete inputs only, where no
code with a text of its own reaches it; the theorems take the method as a
parameter. -/
def errnoText (e : Errno) : String := "errno " ++ toString (toInt64 e)

/-! ## Facility behaviours with interrupted receives -/

/-- The buffer and the facility state after `k` receive attempts that all
report `EINTR`; `none` when one of the first `k` attempts does not. -/
def afterInterrupts {σ : Type} (K : Kernel σ) (msqid msgsz : Nat) (msgtyp : Int) (msgflg : Nat) :
    Nat → sysVsdMsg → σ → Option (sysVsdMsg × σ)
  | 0, msg, k => some (msg, k)
  | j + 1, msg, k =>
    match K.msgrcv msqid msg msgsz msgtyp msgflg k with
    | none => none
    | some ((_, errno, msg1), k1) =>
      if errno = EINTR then afterInterrupts K msqid msgsz msgtyp msgflg j msg1 k1 else none

/-- Modelled from the spec: the facility with signals: while the counter is
positive a receive is interrupted, reports `EINTR` and leaves the queue as it
is. -/
def interrupted : Kernel (Nat × SysV) where
  msgget := fun key msgflg s => (SysV.msgget key msgflg s.2).map fun r => (r.1, (s.1, r.2))
  msgctl := fun msqid cmd s => (SysV.msgctl msqid cmd s.2).map fun r => (r.1, (s.1, r.2))
  msgsnd := fun msqid buf msgsz msgflg s =>
    (SysV.msgsnd msqid buf msgsz msgflg s.2).map fun r => (r.1, (s.1, r.2))
  msgrcv := fun msqid buf msgsz msgtyp msgflg s =>
    match s.1 with
    | 0 => (SysV.msgrcv msqid buf msgsz msgtyp msgflg s.2).map fun r => (r.1, (0, r.2))
    | j + 1 => some ((failed, EINTR, buf), (j, s.2))

/-- The errno of every receive is a `uintptr`. -/
def Kernel.typed {σ : Type} (K : Kernel σ) : Prop :=
  ∀ (msqid : Nat) (buf : sysVsdMsg) (msgsz : Nat) (msgtyp : Int) (msgflg : Nat) (s : σ)
    (n : Nat) (errno : Errno) (buf1 : sysVsdMsg) (s1 : σ),
    K.msgrcv msqid buf msgsz msgtyp msgflg s = some ((n, errno, buf1), s1) → errno < 2 ^ 64

/-! ## Runs of several calls -/

/-- One `Enqueue` call for each payload, in order: the errors returned. -/
def enqueueAll {σ : Type} (K : Kernel σ) (strerror : Errno → String) :
    List (List Byte) → MessageQueue → World σ →
      Option (List (Option GoError) × MessageQueue × World σ)
  | [], q, w => some ([], q, w)
  | P :: rest, q, w =>
    match Enqueue K strerror q P w with
    | none => none
    | some (e, q1, w1) =>
      match enqueueAll K strerror rest q1 w1 with
      | none => none
      | some (es, q2, w2) => some (e :: es, q2, w2)

/-- The given number of `Dequeue` calls, one after the other: what each returns. -/
def dequeueN {σ : Type} (K : Kernel σ) (strerror : Errno → String) (fuel : Nat) :
    Nat → MessageQueue → World σ →
      Option (List (Outcome (Option (List Byte) × Option GoError)) × MessageQueue × World σ)
  | 0, q, w => some ([], q, w)
  | n + 1, q, w =>
    match Dequeue K strerror fuel q w with
    | none => none
    | some (r, q1, w1) =>
      match dequeueN K strerror fuel n q1 w1 with
      | none => none
      | some (rs, q2, w2) => some (r :: rs, q2, w2)

/-- The payloads whose `Enqueue` returned no error, each cut to the 1024 bytes
a receive takes. -/
def delivered : List (List Byte) → List (Option GoError) → List (List Byte)
  | P :: Ps, none :: es => P.take 1024 :: delivered Ps es
  | _ :: Ps, some _ :: es => delivered Ps es
  | _, _ => []

/-- The number of calls that returned no error. -/
def successes : List (Option GoError) → Nat
  | [] => 0
  | none :: es => successes es + 1
  | some _ :: es => successes es

/-! ## The semaphore under interleaving

Several goroutines call `Dequeue` on one client. Each atomic operation of
`sem.go` is one step of one caller; a schedule names the caller that takes
each step. -/

/-- Where a caller stands: outside `Dequeue` (`idle`), in `Acquire` before the
decrement (`trying`), in `Acquire` after a decrement that gave a negative value
and before the compensating increment (`undoing`), or past `Acquire` and before
`Release` (`holding`). -/
inductive Position where
  | idle
  | trying
  | undoing
  | holding
  deriving DecidableEq, Repr

/-- The counter of the semaphore and the position of every caller. -/
structure SemState where
  counter : Int
  callers : List Position
  deriving DecidableEq, Repr

/-- The next atomic step of a caller at a position, on counter `c`: the call
of `Acquire`, the decrement and its test, the compensating increment (after
which the caller yields and tries again), or `Release`. -/
def stepCaller (c : Int) : Position → Int × Position
  | Position.idle => (c, Position.trying)
  | Position.trying =>
    let c1 := addInt32 c (-1)
    if c1 ≥ 0 then (c1, Position.holding) else (c1, Position.undoing)
  | Position.undoing => (addInt32 c 1, Position.trying)
  | Position.holding => (addInt32 c 1, Position.idle)

/-- Caller `i` takes its next step. -/
def SemState.step (s : SemState) (i : Nat) : SemState :=
  match s.callers[i]? with
  | none => s
  | some p => ⟨(stepCaller s.counter p).1, s.callers.set i (stepCaller s.counter p).2⟩

/-- The state after a schedule. -/
def SemState.run (s : SemState) (sched : List Nat) : SemState := sched.foldl SemState.step s

/-- The state after `newHighPerfSem(permits)`, with `n` callers outside `Dequeue`. -/
def SemState.init (permits : Int) (n : Nat) : SemState :=
  ⟨(newHighPerfSem permits).counter, List.replicate n Position.idle⟩

/-- The callers past the acquire point. -/
def SemState.admitted (s : SemState) : Nat := s.callers.count Position.holding

/-- The step of caller `i` does not wrap the counter. -/
def SemState.exactStep (s : SemState) (i : Nat) : Prop :=
  match s.callers[i]? with
  | some Position.trying => addInt32 s.counter (-1) = s.counter - 1
  | some Position.undoing => addInt32 s.counter 1 = s.counter + 1
  | some Position.holding => addInt32 s.counter 1 = s.counter + 1
  | _ => True

/-- No step of the schedule wraps the counter. -/
def SemState.exactRun : SemState → List Nat → Prop
  | _, [] => True
  | s, i :: rest => s.exactStep i ∧ (s.step i).exactRun rest

/-- The invariant of the semaphore with `K` permits. -/
def SemInv (K : Int) (s : SemState) : Prop :=
  s.counter + (s.callers.count Position.holding : Int)
    + (s.callers.count Position.undoing : Int) = K ∧
  (s.callers.count Position.holding : Int) ≤ K

/-- The invariant that keeps the counter from wrapping: with `n` callers, fewer
than `2 ^ 31` permits and at most `2 ^ 31` callers. -/
def SemBound (K : Int) (n : Nat) (s : SemState) : Prop :=
  s.callers.length = n ∧ K < 2 ^ 31 ∧ n ≤ 2 ^ 31

/-! ## Concrete inputs -/

/-- The configuration of `TestQueueLifecycle`. -/
def testConfig : Config := ⟨0x1234, 10240, 4196000, 100, false, 10000, 0, 0o666⟩

/-- The bytes of "test message". -/
def testMessage : List Byte := [116, 101, 115, 116, 32, 109, 101, 115, 115, 97, 103, 101]

/-- The client `NewQueue` returns for `testConfig` on a facility that gives the
queue the identifier 7. -/
def testQueue : MessageQueue := ⟨7, newHighPerfSem 10000, [], testConfig⟩

/-- A facility with no queue yet, the Linux default limits and 64 readable
bytes behind a buffer. -/
def freshSysV : SysV := ⟨false, 0, 7, [], 16384, 8192, List.replicate 64 0⟩

/-- The facility once the queue of `testConfig` exists and is empty. -/
def openSysV : SysV := ⟨true, 0x1234, 7, [], 16384, 8192, List.replicate 64 0⟩

/-- The facility after the queue of `testConfig` was removed. -/
def closedSysV : SysV := ⟨false, 0x1234, 7, [], 16384, 8192, List.replicate 64 0⟩

/-- A client whose configuration allows messages of at most 3 bytes. -/
def smallQueue : MessageQueue := ⟨7, newHighPerfSem 1, [], ⟨0x1234, 3, 0, 100, false, 1, 0, 0o666⟩⟩

/-- The configuration of the test with no permit: `MaxConns = 0`. -/
def zeroConfig : Config := ⟨0x1234, 10240, 4196000, 100, false, 0, 0, 0o666⟩

/-- The client `NewQueue` returns for `zeroConfig`. -/
def zeroQueue : MessageQueue := ⟨7, newHighPerfSem 0, [], zeroConfig⟩

/-- A payload of 1025 bytes: within `MaxSize = 10240`, one byte more than the
buffer `mtext`. -/
def bigMessage : List Byte := List.replicate 1025 1

/-- A configuration with `MaxSize = 0`. -/
def emptyConfig : Config := ⟨0x1234, 0, 4196000, 100, false, 10000, 0, 0o666⟩

/-! ## Machine integers -/

theorem toInt64_of_lt (n : Nat) (h : n < 2 ^ 63) : toInt64 n = (n : Int) := by
  unfold toInt64
  have h1 : n % 2 ^ 64 = n := Nat.mod_eq_of_lt (by omega)
  rw [h1, if_pos h]

theorem toInt64_eq_four (errno : Nat) (hlt : errno < 2 ^ 64) (h : toInt64 errno = 4) :
    errno = 4 := by
  unfold toInt64 at h
  have hmod : errno % 2 ^ 64 = errno := Nat.mod_eq_of_lt hlt
  rw [hmod] at h
  split at h <;> omega

theorem toUintptr_of_valid (i : Int) (h : 1 ≤ i ∧ i ≤ 65536) : toUintptr i = i.toNat := by
  unfold toUintptr
  rw [Int.emod_eq_of_lt (by omega) (by omega)]

theorem addInt32_undo (c : Int) :
    addInt32 (addInt32 (addInt32 c (-1)) 1) (-1) = addInt32 c (-1) := by
  unfold addInt32
  omega

theorem addInt32_release (c : Int) (h : inInt32 c) : addInt32 (addInt32 c (-1)) 1 = c := by
  unfold addInt32
  unfold inInt32 at h
  omega

/-! ## The decimal rendering of a code -/

theorem digitChar_ne_eq (m : Nat) (h : m < 10) : Nat.digitChar m ≠ '=' := by
  interval_cases m <;> decide

theorem toDigitsCore_shape (fuel : Nat) :
    ∀ (n : Nat) (ds : List Char), ∃ pre : List Char,
      Nat.toDigitsCore 10 fuel n ds = pre ++ ds ∧ (∀ c ∈ pre, c ≠ '=') ∧
      (0 < fuel → pre ≠ []) := by
  induction fuel with
  | zero =>
    intro n ds
    exact ⟨[], rfl, by simp, by simp⟩
  | succ fuel ih =>
    intro n ds
    unfold Nat.toDigitsCore
    simp only
    have hd := digitChar_ne_eq (n % 10) (Nat.mod_lt n (by decide))
    by_cases h : n / 10 = 0
    · rw [if_pos h]
      exact ⟨[Nat.digitChar (n % 10)], rfl, by simpa using hd, by simp⟩
    · rw [if_neg h]
      obtain ⟨pre, hpre, hne, -⟩ := ih (n / 10) (Nat.digitChar (n % 10) :: ds)
      refine ⟨pre ++ [Nat.digitChar (n % 10)], by rw [hpre]; simp, ?_, by simp⟩
      intro c hc
      rcases List.mem_append.mp hc with h1 | h1
      · exact hne c h1
      · rw [List.mem_singleton.mp h1]
        exact hd

theorem repr_shape (n : Nat) :
    (Nat.repr n).data ≠ [] ∧ (∀ c ∈ (Nat.repr n).data, c ≠ '=') ∧
    ((Nat.repr n).data = ['4'] → n = 4) := by
  have hdata : (Nat.repr n).data = Nat.toDigitsCore 10 (n + 1) n [] := rfl
  rw [hdata]
  obtain ⟨pre, hpre, hne, hnil⟩ := toDigitsCore_shape (n + 1) n []
  refine ⟨?_, ?_, ?_⟩
  · rw [hpre]
    simpa using hnil (by omega)
  · rw [hpre]
    simpa using hne
  · intro h4
    unfold Nat.toDigitsCore at h4
    simp only at h4
    by_cases h : n / 10 = 0
    · rw [if_pos h] at h4
      have hlt : n < 10 := by omega
      have hmod : n % 10 = n := Nat.mod_eq_of_lt hlt
      rw [hmod] at h4
      simp only [List.cons.injEq, and_true] at h4
      interval_cases n <;> first | rfl | (exact absurd h4 (by decide))
    · rw [if_neg h] at h4
      obtain ⟨pre2, hpre2, -, hnil2⟩ := toDigitsCore_shape n (n / 10) [Nat.digitChar (n % 10)]
      rw [hpre2] at h4
      have hpos : 0 < n := by
        rcases Nat.eq_zero_or_pos n with h0 | h0
        · rw [h0] at h; simp at h
        · exact h0
      have := hnil2 hpos
      have hlen := congrArg List.length h4
      simp only [List.length_append, List.length_singleton] at hlen
      have : 0 < pre2.length := List.length_pos.mpr this
      omega

theorem intRepr_shape (i : Int) :
    (toString i).data ≠ [] ∧ (∀ c ∈ (toString i).data, c ≠ '=') ∧
    ((toString i).data = ['4'] → i = 4) := by
  cases i with
  | ofNat m =>
    have h : (toString (Int.ofNat m)).data = (Nat.repr m).data := rfl
    rw [h]
    obtain ⟨h1, h2, h3⟩ := repr_shape m
    refine ⟨h1, h2, ?_⟩
    intro h4
    rw [h3 h4]
    rfl
  | negSucc m =>
    have h : (toString (Int.negSucc m)).data = '-' :: (Nat.repr (m + 1)).data := rfl
    rw [h]
    obtain ⟨-, h2, -⟩ := repr_shape (m + 1)
    refine ⟨by simp, ?_, by simp⟩
    intro c hc
    rcases List.mem_cons.mp hc with rfl | hc
    · decide
    · exact h2 c hc

theorem code_suffix_ne (A B R : List Char) (hne : R ≠ []) (hno : ∀ c ∈ R, c ≠ '=')
    (h4 : R ≠ ['4']) :
    A ++ " (code=".data ++ R ++ [')'] ≠ B ++ " (code=".data ++ ['4'] ++ [')'] := by
  intro h
  have hr := congrArg List.reverse h
  simp only [List.reverse_append, List.reverse_cons, List.reverse_nil, List.nil_append,
    List.singleton_append, List.cons.injEq, true_and] at hr
  cases hR : R.reverse with
  | nil => exact hne (List.reverse_eq_nil_iff.mp hR)
  | cons c rest =>
    rw [hR] at hr
    simp only [List.cons_append, List.cons.injEq] at hr
    obtain ⟨hc, hrest⟩ := hr
    cases rest with
    | nil =>
      apply h4
      have : R = [c].reverse := by rw [← hR, List.reverse_reverse]
      rw [this, hc]
      rfl
    | cons d rest2 =>
      have hd : d = '=' := by
        have := congrArg List.head? hrest
        simpa using this
      have hmem : d ∈ R := by
        have : d ∈ R.reverse := by rw [hR]; simp
        exact List.mem_reverse.mp this
      exact hno d hmem hd

/-! ## The error classifier -/

theorem errMap_lookup (strerror : Errno → String) (errno : Errno) :
    (match errMap.lookup errno with
      | some d => d
      | none => strerror errno) = specDescription strerror errno := by
  unfold specDescription errMap
  by_cases h1 : errno = ENOMSG
  · subst h1; rfl
  by_cases h2 : errno = E2BIG
  · subst h2; rfl
  by_cases h3 : errno = EACCES
  · subst h3; rfl
  by_cases h4 : errno = EPERM
  · subst h4; rfl
  by_cases h5 : errno = EIDRM
  · subst h5; rfl
  by_cases h6 : errno = ENOSPC
  · subst h6; rfl
  by_cases h7 : errno = ENOENT
  · subst h7; rfl
  by_cases h8 : errno = EINVAL
  · subst h8; rfl
  by_cases h9 : errno = EFAULT
  · subst h9; rfl
  have b1 : (errno == ENOMSG) = false := by simpa using h1
  have b2 : (errno == E2BIG) = false := by simpa using h2
  have b3 : (errno == EACCES) = false := by simpa using h3
  have b4 : (errno == EPERM) = false := by simpa using h4
  have b5 : (errno == EIDRM) = false := by simpa using h5
  have b6 : (errno == ENOSPC) = false := by simpa using h6
  have b7 : (errno == ENOENT) = false := by simpa using h7
  have b8 : (errno == EINVAL) = false := by simpa using h8
  have b9 : (errno == EFAULT) = false := by simpa using h9
  simp only [List.lookup, b1, b2, b3, b4, b5, b6, b7, b8, b9, if_neg h1, if_neg h2, if_neg h3,
    if_neg h4, if_neg h5, if_neg h6, if_neg h7, if_neg h8, if_neg h9]

theorem handleErrno_eq_none (strerror : Errno → String) (errno : Errno) (op : String)
    (args : List String) : handleErrno strerror errno op args = none ↔ errno = 0 := by
  unfold handleErrno
  by_cases h : errno = 0 <;> simp [h]

theorem handleErrno_colon (strerror : Errno → String) (errno : Errno) (op : String)
    (args : List String) (e : GoError) (h : handleErrno strerror errno op args = some e) :
    ∃ t, e = GoError.errorf t ∧ ':' ∈ t.data := by
  unfold handleErrno at h
  split at h
  · simp at h
  · simp only [Option.some.injEq] at h
    refine ⟨_, h.symm, ?_⟩
    simp [String.data_append]

theorem handleErrno_text (strerror : Errno → String) (errno : Errno) (op : String)
    (args : List String) (h : errno ≠ 0) :
    handleErrno strerror errno op args = some (GoError.errorf
      (op ++ " failed: " ++ specDescription strerror errno ++ " (code="
        ++ toString (toInt64 errno) ++ ")"
        ++ (if args = [] then "" else " [ctx: " ++ fmtArgs args ++ "]"))) := by
  unfold handleErrno
  rw [if_neg h]
  simp only [errMap_lookup]
  cases args with
  | nil => simp
  | cons a rest => simp

theorem handleErrno_EINVAL (strerror : Errno → String) (op : String) :
    handleErrno strerror EINVAL op []
      = some (GoError.errorf (op ++ " failed: invalid parameters (code=22)")) := by
  have h := handleErrno_text strerror EINVAL op [] (by decide)
  rw [h]
  have h1 : specDescription strerror EINVAL = "invalid parameters" := rfl
  have h2 : toString (toInt64 EINVAL) = "22" := by decide
  rw [h1, h2]
  simp [String.append_assoc]

theorem handleErrno_ne_sentinel (strerror : Errno → String) (errno : Errno) (op : String)
    (args : List String) :
    handleErrno strerror errno op args ≠ some GoError.ErrQueueDestroyed := by
  intro h
  obtain ⟨t, ht, -⟩ := handleErrno_colon strerror errno op args _ h
  exact absurd ht (by simp)

/-- An error classified from another code is not the error classified from
`EINTR`. -/
theorem handleErrno_ne_EINTR (strerror : Errno → String) (errno : Errno) (op : String)
    (hlt : errno < 2 ^ 64) (hne : errno ≠ EINTR) :
    handleErrno strerror errno op [] ≠ handleErrno strerror EINTR op [] := by
  by_cases h0 : errno = 0
  · subst h0
    rw [(handleErrno_eq_none strerror 0 op []).mpr rfl]
    intro h
    exact absurd ((handleErrno_eq_none strerror EINTR op []).mp h.symm) (by decide)
  · rw [handleErrno_text strerror errno op [] h0,
      handleErrno_text strerror EINTR op [] (by decide)]
    intro h
    simp only [Option.some.injEq, GoError.errorf.injEq, if_true] at h
    have hd := congrArg String.data h
    have h4 : toString (toInt64 EINTR) = "4" := by decide
    rw [h4] at hd
    simp only [String.data_append] at hd
    obtain ⟨h1, h2, h3⟩ := intRepr_shape (toInt64 errno)
    have key := code_suffix_ne
      (op.data ++ " failed: ".data ++ (specDescription strerror errno).data)
      (op.data ++ " failed: ".data ++ (specDescription strerror EINTR).data)
      (toString (toInt64 errno)).data h1 h2
      (fun h => hne (toInt64_eq_four errno hlt (h3 h)))
    apply key
    simpa [List.append_assoc] using hd

/-- C8. `handleErrno` returns nil exactly for errno 0. For every other errno it
returns an error whose text is the operation, " failed: ", the description of
the code, " (code=", the decimal of `int(errno)` and ")", followed by
" [ctx: " and the arguments and "]" exactly when an argument was passed. The
description is the table entry for the nine mapped codes and the facility's own
description for every other code; `int(errno)` is the errno itself for every
errno below `2 ^ 63`. -/
theorem handleErrno_classifier (strerror : Errno → String) (errno : Errno) (op : String)
    (args : List String) :
    (handleErrno strerror errno op args = none ↔ errno = 0) ∧
    (errno ≠ 0 → handleErrno strerror errno op args = some (GoError.errorf
      (op ++ " failed: " ++ specDescription strerror errno ++ " (code="
        ++ toString (toInt64 errno) ++ ")"
        ++ (if args = [] then "" else " [ctx: " ++ fmtArgs args ++ "]")))) ∧
    (errno < 2 ^ 63 → toString (toInt64 errno) = toString errno) ∧
    (specDescription strerror ENOMSG = "no message of desired type" ∧
      specDescription strerror E2BIG = "message too large" ∧
      specDescription strerror EACCES = "permission denied" ∧
      specDescription strerror EPERM = "permission denied" ∧
      specDescription strerror EIDRM = "queue was removed" ∧
      specDescription strerror ENOSPC = "queue limit reached" ∧
      specDescription strerror ENOENT = "queue does not exist" ∧
      specDescription strerror EINVAL = "invalid parameters" ∧
      specDescription strerror EFAULT = "invalid ds buffer segment address") ∧
    (errno ∉ [ENOMSG, E2BIG, EACCES, EPERM, EIDRM, ENOSPC, ENOENT, EINVAL, EFAULT] →
      specDescription strerror errno = strerror errno) := by
  refine ⟨handleErrno_eq_none strerror errno op args,
    handleErrno_text strerror errno op args, ?_,
    ⟨rfl, rfl, rfl, rfl, rfl, rfl, rfl, rfl, rfl⟩, ?_⟩
  · intro h
    rw [toInt64_of_lt errno h]
    rfl
  · intro h
    simp only [List.mem_cons, List.mem_singleton, List.not_mem_nil, or_false, not_or] at h
    obtain ⟨h1, h2, h3, h4, h5, h6, h7, h8, h9⟩ := h
    unfold specDescription
    rw [if_neg h1, if_neg h2, if_neg h3, if_neg h4, if_neg h5, if_neg h6, if_neg h7,
      if_neg h8, if_neg h9]

/-- C8 on `EACCES` from `msgget` with the key of the test as its argument, and
on a code that neither the table of `handleErrno` nor that of the facility has
a text for. -/
theorem handleErrno_classifier_witness :
    handleErrno errnoText EACCES "msgget" ["4660"]
      = some (GoError.errorf "msgget failed: permission denied (code=13) [ctx: [4660]]") ∧
    handleErrno errnoText 200 "msgrcv" []
      = some (GoError.errorf "msgrcv failed: errno 200 (code=200)") :=
  ⟨((handleErrno_classifier errnoText EACCES "msgget" ["4660"]).2.1 (by decide)).trans
      (by decide),
    ((handleErrno_classifier errnoText 200 "msgrcv" []).2.1 (by decide)).trans (by decide)⟩

/-! ## The semaphore, run by one goroutine -/

theorem Acquire_returns (fuel : Nat) (s s1 : highPerfSem) (h : s.Acquire fuel = some s1) :
    s1.counter = addInt32 s.counter (-1) ∧ 0 ≤ s1.counter := by
  induction fuel generalizing s with
  | zero => simp [highPerfSem.Acquire] at h
  | succ fuel ih =>
    unfold highPerfSem.Acquire at h
    simp only at h
    split at h
    · rename_i hge
      simp only [Option.some.injEq] at h
      subst h
      exact ⟨rfl, hge⟩
    · have := ih _ h
      simp only [addInt32_undo] at this
      exact this

theorem Acquire_of_permit (fuel : Nat) (s : highPerfSem) (h1 : 1 ≤ s.counter)
    (h2 : s.counter < 2 ^ 31) : s.Acquire (fuel + 1) = some ⟨s.counter - 1⟩ := by
  unfold highPerfSem.Acquire
  have e : addInt32 s.counter (-1) = s.counter - 1 := by
    unfold addInt32
    omega
  simp only [e]
  rw [if_pos (by omega)]

theorem Acquire_spins (fuel : Nat) (s : highPerfSem) (h1 : s.counter ≤ 0)
    (h2 : -2 ^ 31 < s.counter) : s.Acquire fuel = none := by
  induction fuel with
  | zero => rfl
  | succ fuel ih =>
    unfold highPerfSem.Acquire
    have e : addInt32 s.counter (-1) = s.counter - 1 := by
      unfold addInt32
      omega
    have e2 : addInt32 (s.counter - 1) 1 = s.counter := by
      unfold addInt32
      omega
    simp only [e, e2]
    rw [if_neg (by omega)]
    exact ih

/-! ## The receive loop -/

theorem recvLoop_after {σ : Type} (K : Kernel σ) (msqid msgsz : Nat) (msgtyp : Int)
    (msgflg : Nat) (k : Nat) :
    ∀ (fuel : Nat) (msg : sysVsdMsg) (w : World σ) (msgk : sysVsdMsg) (sk : σ) (n : Nat)
      (errno : Errno) (msg1 : sysVsdMsg) (s1 : σ),
      afterInterrupts K msqid msgsz msgtyp msgflg k msg w.kern = some (msgk, sk) →
      K.msgrcv msqid msgk msgsz msgtyp msgflg sk = some ((n, errno, msg1), s1) →
      errno ≠ EINTR → k + 1 ≤ fuel →
      recvLoop K msqid msgsz msgtyp msgflg fuel msg w = some ((n, errno, msg1),
        ⟨s1, w.trace ++ List.replicate (k + 1)
          (Event.sys (Call.msgrcv msqid msgsz msgtyp msgflg))⟩) := by
  induction k with
  | zero =>
    intro fuel msg w msgk sk n errno msg1 s1 ha hr hne hf
    simp only [afterInterrupts, Option.some.injEq, Prod.mk.injEq] at ha
    obtain ⟨rfl, rfl⟩ := ha
    obtain ⟨f, rfl⟩ : ∃ f, fuel = f + 1 := ⟨fuel - 1, by omega⟩
    unfold recvLoop
    simp only [hr]
    rw [if_pos hne]
    rfl
  | succ k ih =>
    intro fuel msg w msgk sk n errno msg1 s1 ha hr hne hf
    obtain ⟨f, rfl⟩ : ∃ f, fuel = f + 1 := ⟨fuel - 1, by omega⟩
    unfold afterInterrupts at ha
    unfold recvLoop
    split at ha
    · simp at ha
    · rename_i r1 e0 m0 k0 heq
      simp only [heq]
      split at ha
      · rename_i he
        rw [if_neg (by simpa using he)]
        have := ih f m0 (w.log k0 (Event.sys (Call.msgrcv msqid msgsz msgtyp msgflg)))
          msgk sk n errno msg1 s1 ha hr hne (by omega)
        rw [this]
        simp [World.log, List.replicate_succ]
      · simp at ha

theorem recvLoop_result {σ : Type} (K : Kernel σ) (msqid msgsz : Nat) (msgtyp : Int)
    (msgflg : Nat) (fuel : Nat) :
    ∀ (msg : sysVsdMsg) (w : World σ) (n : Nat) (errno : Errno) (msg1 : sysVsdMsg)
      (w2 : World σ),
      recvLoop K msqid msgsz msgtyp msgflg fuel msg w = some ((n, errno, msg1), w2) →
      errno ≠ EINTR ∧ ∃ j, w2.trace = w.trace ++ List.replicate (j + 1)
        (Event.sys (Call.msgrcv msqid msgsz msgtyp msgflg)) := by
  induction fuel with
  | zero =>
    intro msg w n errno msg1 w2 h
    simp [recvLoop] at h
  | succ fuel ih =>
    intro msg w n errno msg1 w2 h
    unfold recvLoop at h
    split at h
    · simp at h
    · rename_i r1 e0 m0 k0 heq
      simp only at h
      split at h
      · rename_i hne
        simp only [Option.some.injEq, Prod.mk.injEq] at h
        obtain ⟨⟨-, rfl, -⟩, rfl⟩ := h
        exact ⟨hne, 0, rfl⟩
      · obtain ⟨hne, j, hj⟩ := ih _ _ _ _ _ _ h
        refine ⟨hne, j + 1, ?_⟩
        rw [hj]
        simp [World.log, List.replicate_succ]

theorem recvLoop_typed {σ : Type} (K : Kernel σ) (hK : K.typed) (msqid msgsz : Nat)
    (msgtyp : Int) (msgflg : Nat) (fuel : Nat) :
    ∀ (msg : sysVsdMsg) (w : World σ) (n : Nat) (errno : Errno) (msg1 : sysVsdMsg)
      (w2 : World σ),
      recvLoop K msqid msgsz msgtyp msgflg fuel msg w = some ((n, errno, msg1), w2) →
      errno < 2 ^ 64 := by
  induction fuel with
  | zero =>
    intro msg w n errno msg1 w2 h
    simp [recvLoop] at h
  | succ fuel ih =>
    intro msg w n errno msg1 w2 h
    unfold recvLoop at h
    split at h
    · simp at h
    · rename_i r1 e0 m0 k0 heq
      simp only at h
      split at h
      · simp only [Option.some.injEq, Prod.mk.injEq] at h
        obtain ⟨⟨-, rfl, -⟩, -⟩ := h
        exact hK _ _ _ _ _ _ _ _ _ _ heq
      · exact ih _ _ _ _ _ _ h

/-! ## The client on an arbitrary facility -/

theorem Enqueue_config {σ : Type} (K : Kernel σ) (strerror : Errno → String)
    (q : MessageQueue) (msg : List Byte) (w : World σ) (r : Option GoError)
    (q1 : MessageQueue) (w1 : World σ) (h : Enqueue K strerror q msg w = some (r, q1, w1)) :
    q1.config = q.config ∧ q1.sem = q.sem ∧ q1.id = q.id := by
  unfold Enqueue at h
  split at h
  · simp only [Option.some.injEq, Prod.mk.injEq] at h
    obtain ⟨-, rfl, -⟩ := h
    exact ⟨rfl, rfl, rfl⟩
  · simp only at h
    split at h
    · simp at h
    · simp only [Option.some.injEq, Prod.mk.injEq] at h
      obtain ⟨-, rfl, -⟩ := h
      exact ⟨rfl, rfl, rfl⟩

theorem Close_config {σ : Type} (K : Kernel σ) (strerror : Errno → String)
    (q : MessageQueue) (w : World σ) (r : Option GoError)
    (q1 : MessageQueue) (w1 : World σ) (h : Close K strerror q w = some (r, q1, w1)) :
    q1 = q := by
  unfold Close at h
  split at h
  · simp at h
  · simp only at h
    split at h <;>
    · simp only [Option.some.injEq, Prod.mk.injEq] at h
      exact h.2.1.symm

theorem Dequeue_config {σ : Type} (K : Kernel σ) (strerror : Errno → String) (fuel : Nat)
    (q : MessageQueue) (w : World σ) (r : Outcome (Option (List Byte) × Option GoError))
    (q1 : MessageQueue) (w1 : World σ) (h : Dequeue K strerror fuel q w = some (r, q1, w1)) :
    q1.config = q.config ∧ q1.id = q.id := by
  unfold Dequeue at h
  split at h
  · simp at h
  · simp only at h
    split at h
    · simp at h
    · simp only [Option.some.injEq, Prod.mk.injEq] at h
      obtain ⟨-, rfl, -⟩ := h
      exact ⟨rfl, rfl⟩

theorem Dequeue_eq {σ : Type} (K : Kernel σ) (strerror : Errno → String) (fuel : Nat)
    (q : MessageQueue) (w : World σ) (sem1 : highPerfSem) (n : Nat) (errno : Errno)
    (msg1 : sysVsdMsg) (w2 : World σ)
    (hacq : q.sem.Acquire fuel = some sem1)
    (hrecv : recvLoop K (toUintptr q.id) 1024 q.config.MsgType (recvFlags q.config) fuel
      q.pool.Get.1 (w.log w.kern Event.acquire) = some ((n, errno, msg1), w2)) :
    Dequeue K strerror fuel q w = some (dequeueResult strerror q.config n errno msg1,
      ⟨q.id, sem1.Release, q.pool.Get.2.Put q.pool.Get.1, q.config⟩,
      w2.log w2.kern Event.release) := by
  unfold Dequeue
  simp only [hacq, hrecv]

theorem Dequeue_inv {σ : Type} (K : Kernel σ) (strerror : Errno → String) (fuel : Nat)
    (q : MessageQueue) (w : World σ) (out : Outcome (Option (List Byte) × Option GoError))
    (q1 : MessageQueue) (w1 : World σ)
    (h : Dequeue K strerror fuel q w = some (out, q1, w1)) :
    ∃ sem1 n errno msg1 w2, q.sem.Acquire fuel = some sem1 ∧
      recvLoop K (toUintptr q.id) 1024 q.config.MsgType (recvFlags q.config) fuel
        q.pool.Get.1 (w.log w.kern Event.acquire) = some ((n, errno, msg1), w2) ∧
      out = dequeueResult strerror q.config n errno msg1 ∧
      q1 = ⟨q.id, sem1.Release, q.pool.Get.2.Put q.pool.Get.1, q.config⟩ ∧
      w1 = w2.log w2.kern Event.release := by
  unfold Dequeue at h
  split at h
  · simp at h
  · rename_i sem1 hacq
    simp only at h
    split at h
    · simp at h
    · rename_i n errno msg1 w2 hrecv
      simp only [Option.some.injEq, Prod.mk.injEq] at h
      obtain ⟨rfl, rfl, rfl⟩ := h
      exact ⟨sem1, n, errno, msg1, w2, hacq, hrecv, rfl, rfl, rfl⟩

theorem Dequeue_after {σ : Type} (K : Kernel σ) (strerror : Errno → String) (fuel k : Nat)
    (q : MessageQueue) (w : World σ) (sem1 : highPerfSem) (msgk : sysVsdMsg) (sk : σ)
    (n : Nat) (errno : Errno) (msg1 : sysVsdMsg) (s1 : σ)
    (hacq : q.sem.Acquire fuel = some sem1)
    (hk : afterInterrupts K (toUintptr q.id) 1024 q.config.MsgType (recvFlags q.config) k
      q.pool.Get.1 w.kern = some (msgk, sk))
    (hr : K.msgrcv (toUintptr q.id) msgk 1024 q.config.MsgType (recvFlags q.config) sk
      = some ((n, errno, msg1), s1))
    (hne : errno ≠ EINTR) (hfuel : k + 1 ≤ fuel) :
    Dequeue K strerror fuel q w = some (dequeueResult strerror q.config n errno msg1,
      ⟨q.id, sem1.Release, q.pool.Get.2.Put q.pool.Get.1, q.config⟩,
      ⟨s1, w.trace ++ [Event.acquire] ++ List.replicate (k + 1) (Event.sys
        (Call.msgrcv (toUintptr q.id) 1024 q.config.MsgType (recvFlags q.config)))
        ++ [Event.release]⟩) := by
  have h := recvLoop_after K (toUintptr q.id) 1024 q.config.MsgType (recvFlags q.config) k
    fuel q.pool.Get.1 (w.log w.kern Event.acquire) msgk sk n errno msg1 s1 hk hr hne hfuel
  rw [Dequeue_eq K strerror fuel q w sem1 n errno msg1 _ hacq h]
  rfl

theorem Dequeue_spins {σ : Type} (K : Kernel σ) (strerror : Errno → String) (fuel : Nat)
    (q : MessageQueue) (w : World σ) (h1 : q.sem.counter ≤ 0) (h2 : -2 ^ 31 < q.sem.counter) :
    Dequeue K strerror fuel q w = none := by
  unfold Dequeue
  rw [Acquire_spins fuel q.sem h1 h2]

theorem Dequeue_length_le {σ : Type} (K : Kernel σ) (strerror : Errno → String)
    (fuel : Nat) (q : MessageQueue) (w : World σ) (R : List Byte) (e : Option GoError)
    (q1 : MessageQueue) (w1 : World σ)
    (h : Dequeue K strerror fuel q w = some (Outcome.ret (some R, e), q1, w1)) :
    R.length ≤ 1024 := by
  obtain ⟨sem1, n, errno, msg1, w2, -, -, hout, -, -⟩ :=
    Dequeue_inv K strerror fuel q w _ q1 w1 h
  unfold dequeueResult at hout
  split at hout
  · split at hout <;> simp at hout
  · split at hout
    · simp at hout
    · split at hout
      · simp at hout
      · simp only [Outcome.ret.injEq, Prod.mk.injEq, Option.some.injEq] at hout
        rw [hout.1, List.length_take]
        omega

theorem dequeueResult_ne_EINTR (strerror : Errno → String) (cfg : Config) (n : Nat)
    (errno : Errno) (msg : sysVsdMsg) (hlt : errno < 2 ^ 64) (hne : errno ≠ EINTR) :
    dequeueResult strerror cfg n errno msg
      ≠ Outcome.ret (none, handleErrno strerror EINTR "msgrcv" []) := by
  have hE := handleErrno_text strerror EINTR "msgrcv" [] (by decide)
  unfold dequeueResult
  split
  · split
    · rw [hE]
      simp
    · intro h
      simp only [Outcome.ret.injEq, Prod.mk.injEq, true_and] at h
      exact handleErrno_ne_EINTR strerror errno "msgrcv" hlt hne h
  · split
    · rw [hE]
      intro h
      simp only [Outcome.ret.injEq, Prod.mk.injEq, true_and, Option.some.injEq,
        GoError.errorf.injEq, if_true] at h
      have hd := congrArg String.data h
      simp only [String.data_append] at hd
      have h2 := congrArg (fun l => l.get? 1) hd
      simp at h2
    · split
      · simp
      · simp

/-- C3. For every client, every facility in every state and every payload
longer than `config.MaxSize`, `Enqueue` returns the error "message size <len>
exceeds limit <MaxSize>" and leaves the client, the facility state and the
trace as they were: it issues no facility call. -/
theorem Enqueue_oversize {σ : Type} (K : Kernel σ) (strerror : Errno → String)
    (q : MessageQueue) (msg : List Byte) (w : World σ)
    (h : (msg.length : Int) > q.config.MaxSize) :
    Enqueue K strerror q msg w = some (some (GoError.errorf ("message size "
      ++ toString msg.length ++ " exceeds limit " ++ toString q.config.MaxSize)), q, w) := by
  unfold Enqueue
  rw [if_pos h]

/-- C3 on a client with `MaxSize = 3` and a payload of 4 bytes. -/
theorem Enqueue_oversize_witness :
    Enqueue sysv errnoText smallQueue [1, 2, 3, 4] ⟨openSysV, []⟩
      = some (some (GoError.errorf "message size 4 exceeds limit 3"), smallQueue,
          ⟨openSysV, []⟩) :=
  Enqueue_oversize sysv errnoText smallQueue [1, 2, 3, 4] ⟨openSysV, []⟩ (by decide)

/-- C6. `NewQueue` returns the validation error, no client and an untouched
facility when `MaxSize` is below 1 or above 65536; for every other
configuration its outcome is the facility's answer to `msgget`, and is never
the validation error. A client it returns has the configuration it was given,
with `0 < MaxSize <= 65536`, and `Enqueue`, `Dequeue` and `Close` leave the
configuration as it is. -/
theorem NewQueue_validates {σ : Type} (K : Kernel σ) (strerror : Errno → String)
    (cfg : Config) (w : World σ) :
    ((cfg.MaxSize < 1 ∨ cfg.MaxSize > 65536) → NewQueue K strerror cfg w
      = some ((none, some (GoError.errorf "MaxSize must be 1-65536")), w)) ∧
    ((1 ≤ cfg.MaxSize ∧ cfg.MaxSize ≤ 65536) → NewQueue K strerror cfg w
      = (K.msgget cfg.Key (Int.lor (Int.lor cfg.Flags IPC_CREAT) cfg.Perm) w.kern).map
        fun r => (if r.1.2 ≠ 0
            then (none, handleErrno strerror r.1.2 "msgget" [toString cfg.Key])
            else (some ⟨toInt64 r.1.1, newHighPerfSem cfg.MaxConns, [], cfg⟩, none),
          (⟨r.2, w.trace ++ [Event.sys (Call.msgget cfg.Key
            (Int.lor (Int.lor cfg.Flags IPC_CREAT) cfg.Perm))]⟩ : World σ))) ∧
    ((1 ≤ cfg.MaxSize ∧ cfg.MaxSize ≤ 65536) → ∀ r w1, NewQueue K strerror cfg w = some (r, w1) →
      r.2 ≠ some (GoError.errorf "MaxSize must be 1-65536")) ∧
    (∀ q e w1, NewQueue K strerror cfg w = some ((some q, e), w1) →
      0 < q.config.MaxSize ∧ q.config.MaxSize ≤ 65536 ∧ q.config = cfg ∧ e = none) ∧
    (∀ q msg v r q1 w1, Enqueue K strerror q msg v = some (r, q1, w1) →
      q1.config = q.config) ∧
    (∀ fuel q v r q1 w1, Dequeue K strerror fuel q v = some (r, q1, w1) →
      q1.config = q.config) ∧
    (∀ q v r q1 w1, Close K strerror q v = some (r, q1, w1) → q1.config = q.config) := by
  have hvalid : (1 ≤ cfg.MaxSize ∧ cfg.MaxSize ≤ 65536) → NewQueue K strerror cfg w
      = (K.msgget cfg.Key (Int.lor (Int.lor cfg.Flags IPC_CREAT) cfg.Perm) w.kern).map
        fun r => (if r.1.2 ≠ 0
            then (none, handleErrno strerror r.1.2 "msgget" [toString cfg.Key])
            else (some ⟨toInt64 r.1.1, newHighPerfSem cfg.MaxConns, [], cfg⟩, none),
          (⟨r.2, w.trace ++ [Event.sys (Call.msgget cfg.Key
            (Int.lor (Int.lor cfg.Flags IPC_CREAT) cfg.Perm))]⟩ : World σ)) := by
    intro h
    unfold NewQueue
    rw [if_neg (by omega)]
    simp only
    cases hg : K.msgget cfg.Key (Int.lor (Int.lor cfg.Flags IPC_CREAT) cfg.Perm) w.kern with
    | none => rfl
    | some r =>
      obtain ⟨⟨qid, errno⟩, k1⟩ := r
      simp only [Option.map_some']
      by_cases he : errno = 0
      · simp [he, World.log]
      · simp [he, World.log]
  have hinvalid : (cfg.MaxSize < 1 ∨ cfg.MaxSize > 65536) → NewQueue K strerror cfg w
      = some ((none, some (GoError.errorf "MaxSize must be 1-65536")), w) := by
    intro h
    unfold NewQueue
    rw [if_pos (by omega)]
  refine ⟨hinvalid, hvalid, ?_, ?_, ?_, ?_, ?_⟩
  · intro h r w1 hr
    rw [hvalid h] at hr
    cases hg : K.msgget cfg.Key (Int.lor (Int.lor cfg.Flags IPC_CREAT) cfg.Perm) w.kern with
    | none =>
      rw [hg] at hr
      simp only [Option.map_none'] at hr
      exact absurd hr (by simp)
    | some x =>
      rw [hg] at hr
      simp only [Option.map_some', Option.some.injEq, Prod.mk.injEq] at hr
      obtain ⟨hr, -⟩ := hr
      subst hr
      by_cases he : x.1.2 = 0
      · simp [he]
      · simp only [ne_eq, he, not_false_eq_true, if_true]
        intro hcon
        obtain ⟨t, ht, hmem⟩ := handleErrno_colon strerror _ _ _ _ hcon
        simp only [GoError.errorf.injEq] at ht
        rw [← ht] at hmem
        revert hmem
        decide
  · intro q e w1 hr
    by_cases h : cfg.MaxSize < 1 ∨ cfg.MaxSize > 65536
    · rw [hinvalid h] at hr
      simp at hr
    · have h2 : 1 ≤ cfg.MaxSize ∧ cfg.MaxSize ≤ 65536 := by omega
      rw [hvalid h2] at hr
      cases hg : K.msgget cfg.Key (Int.lor (Int.lor cfg.Flags IPC_CREAT) cfg.Perm) w.kern with
      | none =>
        rw [hg] at hr
        simp only [Option.map_none'] at hr
        exact absurd hr (by simp)
      | some x =>
        rw [hg] at hr
        simp only [Option.map_some', Option.some.injEq, Prod.mk.injEq] at hr
        by_cases he : x.1.2 = 0
        · simp only [ne_eq, he, not_true_eq_false, if_false, Prod.mk.injEq,
            Option.some.injEq] at hr
          obtain ⟨⟨rfl, rfl⟩, -⟩ := hr
          exact ⟨by simp only; omega, by simp only; omega, rfl, rfl⟩
        · simp [he] at hr
  · intro q msg v r q1 w1 h
    exact (Enqueue_config K strerror q msg v r q1 w1 h).1
  · intro fuel q v r q1 w1 h
    exact (Dequeue_config K strerror fuel q v r q1 w1 h).1
  · intro q v r q1 w1 h
    rw [Close_config K strerror q v r q1 w1 h]

/-- C6 on a configuration with `MaxSize = 0`, which is refused with the facility
untouched, and on the configuration of the test, which the facility decides. -/
theorem NewQueue_validates_witness :
    NewQueue sysv errnoText emptyConfig ⟨freshSysV, []⟩
      = some ((none, some (GoError.errorf "MaxSize must be 1-65536")), ⟨freshSysV, []⟩) ∧
    NewQueue sysv errnoText testConfig ⟨freshSysV, []⟩
      = some ((some testQueue, none), ⟨openSysV, [Event.sys (Call.msgget 0x1234 950)]⟩) :=
  ⟨(NewQueue_validates sysv errnoText emptyConfig ⟨freshSysV, []⟩).1 (Or.inl (by decide)),
    ((NewQueue_validates sysv errnoText testConfig ⟨freshSysV, []⟩).2.1
      ⟨by decide, by decide⟩).trans rfl⟩

/-! ## Message buffers -/

theorem copyBytes_length (dst src : List Byte) :
    (copyBytes dst src).length = dst.length := by
  simp only [copyBytes, List.length_append, List.length_take, List.length_drop]
  omega

theorem take_copyBytes (buf P adj : List Byte) (hbuf : buf.length = 1024) :
    (((copyBytes buf P ++ adj).take P.length).take 1024) = P.take 1024 := by
  unfold copyBytes
  rw [hbuf, List.take_take]
  by_cases h : P.length ≤ 1024
  · rw [Nat.min_eq_right h, List.take_of_length_le h, List.append_assoc,
      List.take_left' rfl]
  · have h1 : 1024 ≤ P.length := by omega
    have h2 : buf.drop P.length = [] := List.drop_eq_nil_of_le (by omega)
    rw [Nat.min_eq_left h1, h2, List.append_nil]
    exact List.take_left' (by simp [List.length_take]; omega)

theorem stored_of_fits (buf P adj : List Byte) (hbuf : buf.length = 1024)
    (h : P.length ≤ 1024) : (copyBytes buf P ++ adj).take P.length = P := by
  unfold copyBytes
  rw [hbuf, List.take_of_length_le h, List.append_assoc, List.take_left' rfl]

theorem stored_length (buf P adj : List Byte)
    (h : ¬ P.length > (copyBytes buf P ++ adj).length) :
    ((copyBytes buf P ++ adj).take P.length).length = P.length := by
  rw [List.length_take]
  omega

theorem take_copyBytes_self (buf P : List Byte) (hbuf : buf.length = 1024)
    (h : P.length ≤ 1024) : (copyBytes buf P).take P.length = P := by
  have := stored_of_fits buf P [] hbuf h
  simpa using this

theorem storedMessage_take (cfg : Config) (buf : sysVsdMsg) (P adj : List Byte) :
    (storedMessage cfg buf P adj).mtext.take 1024 = P.take 1024 :=
  take_copyBytes buf.mtext P adj buf.mtext_len

theorem storedMessage_fits (cfg : Config) (buf : sysVsdMsg) (P adj : List Byte)
    (h : P.length ≤ 1024) : storedMessage cfg buf P adj = ⟨cfg.MsgType, P⟩ := by
  unfold storedMessage
  rw [stored_of_fits buf.mtext P adj buf.mtext_len h]

/-! ## The model facility -/

theorem sysv_typed : sysv.typed := by
  intro msqid buf msgsz msgtyp msgflg s n errno buf1 s1 h
  have h1 : SysV.msgrcv msqid buf msgsz msgtyp msgflg s = some ((n, errno, buf1), s1) := h
  unfold SysV.msgrcv at h1
  split at h1
  · simp only [Option.some.injEq, Prod.mk.injEq] at h1
    obtain ⟨⟨-, rfl, -⟩, -⟩ := h1
    decide
  · split at h1
    · split at h1
      · simp only [Option.some.injEq, Prod.mk.injEq] at h1
        obtain ⟨⟨-, rfl, -⟩, -⟩ := h1
        decide
      · simp at h1
    · split at h1
      · simp only [Option.some.injEq, Prod.mk.injEq] at h1
        obtain ⟨⟨-, rfl, -⟩, -⟩ := h1
        decide
      · simp only [Option.some.injEq, Prod.mk.injEq] at h1
        obtain ⟨⟨-, rfl, -⟩, -⟩ := h1
        decide

theorem takeFirst_none (p : Message → Bool) (msgs : List Message)
    (h : ∀ m ∈ msgs, p m = false) : takeFirst p msgs = none := by
  induction msgs with
  | nil => rfl
  | cons m rest ih =>
    have hm : p m = false := h m (List.mem_cons_self m rest)
    have hr := ih (fun x hx => h x (List.mem_cons_of_mem m hx))
    simp [takeFirst, hm, hr]

theorem takeFirst_append_last (p : Message → Bool) (l : List Message) (x : Message)
    (h : ∀ m ∈ l, p m = false) (hx : p x = true) :
    takeFirst p (l ++ [x]) = some (x, l) := by
  induction l with
  | nil => simp [takeFirst, hx]
  | cons m rest ih =>
    have hm : p m = false := h m (List.mem_cons_self m rest)
    have hr := ih (fun y hy => h y (List.mem_cons_of_mem m hy))
    simp [takeFirst, hm, hr]

theorem recvFlags_cases (cfg : Config) :
    recvFlags cfg &&& MSG_EXCEPT = 0 ∧ recvFlags cfg &&& MSG_NOERROR ≠ 0 ∧
    (cfg.Block = false → recvFlags cfg &&& IPC_NOWAIT ≠ 0) := by
  unfold recvFlags
  cases cfg.Block <;> simp <;> decide

theorem selectMsg_nil (msgtyp : Int) (msgflg : Nat) : selectMsg msgtyp msgflg [] = none := by
  unfold selectMsg
  by_cases h1 : msgtyp = 0
  · rw [if_pos h1]; rfl
  · rw [if_neg h1]
    by_cases h2 : msgtyp > 0
    · rw [if_pos h2]
      by_cases h3 : msgflg &&& MSG_EXCEPT ≠ 0
      · rw [if_pos h3]; rfl
      · rw [if_neg h3]; rfl
    · rw [if_neg h2]; rfl

theorem selectMsg_head (cfg : Config) (m : Message) (rest : List Message)
    (ht : 1 ≤ cfg.MsgType) (hm : m.mtype = cfg.MsgType) :
    selectMsg cfg.MsgType (recvFlags cfg) (m :: rest) = some (m, rest) := by
  unfold selectMsg
  rw [if_neg (by omega), if_pos (by omega), if_neg (by simp [(recvFlags_cases cfg).1])]
  simp [takeFirst, hm]

theorem selectMsg_last (cfg : Config) (l : List Message) (x : Message)
    (ht : 1 ≤ cfg.MsgType) (hx : x.mtype = cfg.MsgType)
    (h : ∀ m ∈ l, m.mtype ≠ cfg.MsgType) :
    selectMsg cfg.MsgType (recvFlags cfg) (l ++ [x]) = some (x, l) := by
  unfold selectMsg
  rw [if_neg (by omega), if_pos (by omega),
    if_neg (by simp [(recvFlags_cases cfg).1])]
  exact takeFirst_append_last _ l x (fun m hm => by simpa using h m hm) (by simpa using hx)

theorem sysv_msgrcv_empty (f : SysV) (buf : sysVsdMsg) (cfg : Config) (msqid : Nat)
    (he : f.exist = true) (hid : f.msqid = msqid) (hb : cfg.Block = false)
    (ht : 0 < cfg.MsgType) (hn : ∀ m ∈ f.msgs, m.mtype ≠ cfg.MsgType) :
    sysv.msgrcv msqid buf 1024 cfg.MsgType (recvFlags cfg) f
      = some ((failed, ENOMSG, buf), f) := by
  obtain ⟨h1, -, h3⟩ := recvFlags_cases cfg
  have hsel : selectMsg cfg.MsgType (recvFlags cfg) f.msgs = none := by
    unfold selectMsg
    rw [if_neg (by omega), if_pos ht, if_neg (by simp [h1])]
    exact takeFirst_none _ _ (fun m hm => by simpa using hn m hm)
  show SysV.msgrcv msqid buf 1024 cfg.MsgType (recvFlags cfg) f = _
  unfold SysV.msgrcv
  rw [if_neg (by simp [he, hid])]
  simp only [hsel]
  rw [if_pos (h3 hb)]

theorem sysv_msgrcv_select (msqid : Nat) (buf : sysVsdMsg) (msgtyp : Int) (msgflg : Nat)
    (f : SysV) (m : Message) (rest : List Message)
    (he : f.exist = true) (hid : f.msqid = msqid)
    (hsel : selectMsg msgtyp msgflg f.msgs = some (m, rest))
    (hno : msgflg &&& MSG_NOERROR ≠ 0) :
    sysv.msgrcv msqid buf 1024 msgtyp msgflg f
      = some (((m.mtext.take 1024).length, 0,
          (buf.setType m.mtype).copyIn (m.mtext.take 1024)),
        ⟨f.exist, f.key, f.msqid, rest, f.qbytes, f.msgmax, f.adjacent⟩) := by
  show SysV.msgrcv msqid buf 1024 msgtyp msgflg f = _
  unfold SysV.msgrcv
  rw [if_neg (by simp [he, hid])]
  simp only [hsel]
  rw [if_neg (by intro hc; exact hno hc.2)]

theorem sysv_msgsnd_cases (msqid : Nat) (buf : sysVsdMsg) (msgsz : Nat) (f : SysV) :
    (sysv.msgsnd msqid buf msgsz IPC_NOWAIT f = some (0, ⟨f.exist, f.key, f.msqid,
        f.msgs ++ [⟨buf.mtype, (buf.mtext ++ f.adjacent).take msgsz⟩],
        f.qbytes, f.msgmax, f.adjacent⟩) ∧
      f.exist = true ∧ f.msqid = msqid ∧ 1 ≤ buf.mtype ∧
      ¬ msgsz > (buf.mtext ++ f.adjacent).length) ∨
    (∃ errno, errno ≠ 0 ∧ sysv.msgsnd msqid buf msgsz IPC_NOWAIT f = some (errno, f)) := by
  show (SysV.msgsnd msqid buf msgsz IPC_NOWAIT f = _ ∧ _) ∨
    (∃ errno, errno ≠ 0 ∧ SysV.msgsnd msqid buf msgsz IPC_NOWAIT f = some (errno, f))
  unfold SysV.msgsnd
  by_cases h1 : ¬ f.exist ∨ msqid ≠ f.msqid
  · right
    exact ⟨EINVAL, by decide, by rw [if_pos h1]⟩
  · rw [if_neg h1]
    by_cases h2 : buf.mtype < 1 ∨ msgsz > f.msgmax
    · right
      exact ⟨EINVAL, by decide, by rw [if_pos h2]⟩
    · rw [if_neg h2]
      by_cases h3 : msgsz > (buf.mtext ++ f.adjacent).length
      · right
        exact ⟨EFAULT, by decide, by rw [if_pos h3]⟩
      · rw [if_neg h3]
        by_cases h4 : f.cbytes + msgsz > f.qbytes ∨ f.msgs.length + 1 > f.qbytes
        · right
          refine ⟨EAGAIN, by decide, ?_⟩
          rw [if_pos h4, if_pos (by decide)]
        · left
          rw [if_neg h4]
          refine ⟨rfl, ?_, ?_, ?_, h3⟩
          · by_contra hc
            exact h1 (Or.inl hc)
          · by_contra hc
            exact h1 (Or.inr (fun h => hc h.symm))
          · omega

theorem interrupted_msgrcv_zero (msqid : Nat) (buf : sysVsdMsg) (msgsz : Nat) (msgtyp : Int)
    (msgflg : Nat) (f : SysV) (r : Nat × Errno × sysVsdMsg) (f1 : SysV)
    (h : sysv.msgrcv msqid buf msgsz msgtyp msgflg f = some (r, f1)) :
    interrupted.msgrcv msqid buf msgsz msgtyp msgflg (0, f) = some (r, (0, f1)) := by
  have h1 : SysV.msgrcv msqid buf msgsz msgtyp msgflg f = some (r, f1) := h
  simp only [interrupted, h1, Option.map_some']

/-! ## The client on the model facility -/

theorem Enqueue_sysv (strerror : Errno → String) (q : MessageQueue) (P : List Byte)
    (f : SysV) (tr : List Event) (e : Option GoError) (q1 : MessageQueue) (w1 : World SysV)
    (h : Enqueue sysv strerror q P ⟨f, tr⟩ = some (e, q1, w1)) :
    q1.id = q.id ∧ q1.sem = q.sem ∧ q1.config = q.config ∧
    ((e = none ∧ f.exist = true ∧ f.msqid = toUintptr q.id ∧ 1 ≤ q.config.MsgType ∧
        (P.length : Int) ≤ q.config.MaxSize ∧
        (storedMessage q.config q.pool.Get.1 P f.adjacent).mtext.length = P.length ∧
        w1.kern = ⟨f.exist, f.key, f.msqid,
          f.msgs ++ [storedMessage q.config q.pool.Get.1 P f.adjacent],
          f.qbytes, f.msgmax, f.adjacent⟩) ∨
      (e ≠ none ∧ w1.kern = f)) := by
  obtain ⟨hc, hs, hi⟩ := Enqueue_config sysv strerror q P ⟨f, tr⟩ e q1 w1 h
  refine ⟨hi, hs, hc, ?_⟩
  unfold Enqueue at h
  split at h
  · simp only [Option.some.injEq, Prod.mk.injEq] at h
    obtain ⟨rfl, -, rfl⟩ := h
    right
    exact ⟨by simp, rfl⟩
  · rename_i hlen
    simp only at h
    rcases sysv_msgsnd_cases (toUintptr q.id)
      ((q.pool.Get.1.setType q.config.MsgType).copyIn P) P.length f with hok | ⟨errno, hne, herr⟩
    · obtain ⟨hsnd, hex, hid, hty, hfit⟩ := hok
      rw [hsnd] at h
      simp only [Option.some.injEq, Prod.mk.injEq] at h
      obtain ⟨rfl, -, rfl⟩ := h
      left
      refine ⟨(handleErrno_eq_none strerror 0 "msgsnd" []).mpr rfl, hex, hid, hty,
        by omega, ?_, rfl⟩
      exact stored_length _ _ _ hfit
    · rw [herr] at h
      simp only [Option.some.injEq, Prod.mk.injEq] at h
      obtain ⟨rfl, -, rfl⟩ := h
      right
      refine ⟨?_, rfl⟩
      intro hcon
      exact hne ((handleErrno_eq_none strerror errno "msgsnd" []).mp hcon)

theorem Enqueue_sysv_ok (strerror : Errno → String) (q : MessageQueue) (P : List Byte)
    (f : SysV) (tr : List Event)
    (hlen : (P.length : Int) ≤ q.config.MaxSize)
    (he : f.exist = true) (hid : f.msqid = toUintptr q.id) (ht : 1 ≤ q.config.MsgType)
    (hmax : P.length ≤ f.msgmax) (hmem : P.length ≤ 1024 + f.adjacent.length)
    (hroom : f.cbytes + P.length ≤ f.qbytes) (hnum : f.msgs.length + 1 ≤ f.qbytes) :
    Enqueue sysv strerror q P ⟨f, tr⟩
      = some (none,
          ⟨q.id, q.sem, q.pool.Get.2.Put ((q.pool.Get.1.setType q.config.MsgType).copyIn P),
            q.config⟩,
          ⟨⟨f.exist, f.key, f.msqid,
            f.msgs ++ [storedMessage q.config q.pool.Get.1 P f.adjacent],
            f.qbytes, f.msgmax, f.adjacent⟩,
            tr ++ [Event.sys (Call.msgsnd (toUintptr q.id) P.length IPC_NOWAIT)]⟩) := by
  have hsnd : sysv.msgsnd (toUintptr q.id) ((q.pool.Get.1.setType q.config.MsgType).copyIn P)
      P.length IPC_NOWAIT f = some (0, ⟨f.exist, f.key, f.msqid,
        f.msgs ++ [storedMessage q.config q.pool.Get.1 P f.adjacent],
        f.qbytes, f.msgmax, f.adjacent⟩) := by
    show SysV.msgsnd (toUintptr q.id) ((q.pool.Get.1.setType q.config.MsgType).copyIn P)
      P.length IPC_NOWAIT f = _
    unfold SysV.msgsnd
    have hl : (((q.pool.Get.1.setType q.config.MsgType).copyIn P).mtext ++ f.adjacent).length
        = 1024 + f.adjacent.length := by
      rw [List.length_append, sysVsdMsg.mtext_len]
    have hty : ((q.pool.Get.1.setType q.config.MsgType).copyIn P).mtype
        = q.config.MsgType := rfl
    rw [if_neg (by simp [he, hid]), if_neg (by rw [hty]; omega), if_neg (by rw [hl]; omega),
      if_neg (by omega)]
    rfl
  unfold Enqueue
  rw [if_neg (by omega)]
  simp only [hsnd]
  have h0 : handleErrno strerror 0 "msgsnd" [] = none := rfl
  rw [h0]
  rfl

theorem Enqueue_sysv_next (strerror : Errno → String) (q : MessageQueue) (P : List Byte)
    (f : SysV) (tr : List Event)
    (hlen : (P.length : Int) ≤ q.config.MaxSize)
    (he : f.exist = true) (hid : f.msqid = toUintptr q.id) (ht : 1 ≤ q.config.MsgType)
    (hmax : P.length ≤ f.msgmax) (hmem : P.length ≤ 1024 + f.adjacent.length)
    (hroom : f.cbytes + P.length ≤ f.qbytes) (hnum : f.msgs.length + 1 ≤ f.qbytes) :
    ∃ q1 f1 tr1, Enqueue sysv strerror q P ⟨f, tr⟩ = some (none, q1, ⟨f1, tr1⟩) ∧
      q1.config = q.config ∧ q1.id = q.id ∧ f1.exist = true ∧ f1.msqid = f.msqid ∧
      f1.msgmax = f.msgmax ∧ f1.adjacent = f.adjacent ∧ f1.qbytes = f.qbytes ∧
      f1.cbytes = f.cbytes + P.length ∧ f1.msgs.length = f.msgs.length + 1 := by
  refine ⟨_, _, _, Enqueue_sysv_ok strerror q P f tr hlen he hid ht hmax hmem hroom hnum,
    rfl, rfl, he, rfl, rfl, rfl, rfl, ?_, by simp⟩
  have hfit : ¬ P.length > (copyBytes q.pool.Get.1.mtext P ++ f.adjacent).length := by
    rw [List.length_append, copyBytes_length, sysVsdMsg.mtext_len]
    omega
  have hs : (storedMessage q.config q.pool.Get.1 P f.adjacent).mtext.length = P.length :=
    stored_length _ _ _ hfit
  simp [SysV.cbytes, hs]

theorem dequeueResult_delivers (strerror : Errno → String) (cfg : Config) (buf : sysVsdMsg)
    (m : Message) (hcfg : 1 ≤ cfg.MaxSize ∧ cfg.MaxSize ≤ 65536)
    (hlen : ((m.mtext.take 1024).length : Int) ≤ cfg.MaxSize) :
    dequeueResult strerror cfg (m.mtext.take 1024).length 0
        ((buf.setType m.mtype).copyIn (m.mtext.take 1024))
      = Outcome.ret (some (m.mtext.take 1024), none) := by
  unfold dequeueResult
  have h1 : (m.mtext.take 1024).length ≤ 1024 := by
    rw [List.length_take]
    omega
  rw [if_neg (by simp), toUintptr_of_valid _ hcfg, if_neg (by omega), if_neg (by omega)]
  have h2 : ((buf.setType m.mtype).copyIn (m.mtext.take 1024)).mtext
      = copyBytes buf.mtext (m.mtext.take 1024) := rfl
  rw [h2, take_copyBytes_self _ _ buf.mtext_len h1]

theorem Dequeue_sysv_delivers (strerror : Errno → String) (fuel : Nat) (q : MessageQueue)
    (f : SysV) (tr : List Event) (m : Message) (rest : List Message)
    (hcfg : 1 ≤ q.config.MaxSize ∧ q.config.MaxSize ≤ 65536)
    (hsem : 1 ≤ q.sem.counter ∧ q.sem.counter < 2 ^ 31)
    (he : f.exist = true) (hid : f.msqid = toUintptr q.id)
    (hsel : selectMsg q.config.MsgType (recvFlags q.config) f.msgs = some (m, rest))
    (hlen : ((m.mtext.take 1024).length : Int) ≤ q.config.MaxSize) :
    Dequeue sysv strerror (fuel + 1) q ⟨f, tr⟩
      = some (Outcome.ret (some (m.mtext.take 1024), none),
          ⟨q.id, q.sem, q.pool.Get.2.Put q.pool.Get.1, q.config⟩,
          ⟨⟨f.exist, f.key, f.msqid, rest, f.qbytes, f.msgmax, f.adjacent⟩,
            tr ++ [Event.acquire, Event.sys (Call.msgrcv (toUintptr q.id) 1024
              q.config.MsgType (recvFlags q.config)), Event.release]⟩) := by
  have hacq := Acquire_of_permit fuel q.sem hsem.1 hsem.2
  have hrcv := sysv_msgrcv_select (toUintptr q.id) q.pool.Get.1 q.config.MsgType
    (recvFlags q.config) f m rest he hid hsel (recvFlags_cases q.config).2.1
  have h := Dequeue_after sysv strerror (fuel + 1) 0 q ⟨f, tr⟩ _ q.pool.Get.1 f _ _ _ _
    hacq rfl hrcv (by decide) (by omega)
  rw [h, dequeueResult_delivers strerror q.config _ m hcfg hlen]
  have hrel : (⟨q.sem.counter - 1⟩ : highPerfSem).Release = q.sem := by
    unfold highPerfSem.Release addInt32
    have : (q.sem.counter - 1 + 1 + 2 ^ 31) % 2 ^ 32 - 2 ^ 31 = q.sem.counter := by omega
    simp only [this]
  rw [hrel]
  simp

theorem Dequeue_sysv_empty (strerror : Errno → String) (fuel : Nat) (q : MessageQueue)
    (f : SysV) (tr : List Event)
    (hsem : 1 ≤ q.sem.counter ∧ q.sem.counter < 2 ^ 31)
    (he : f.exist = true) (hid : f.msqid = toUintptr q.id) (hb : q.config.Block = false)
    (hsel : selectMsg q.config.MsgType (recvFlags q.config) f.msgs = none) :
    Dequeue sysv strerror (fuel + 1) q ⟨f, tr⟩
      = some (Outcome.ret (none, some GoError.ErrNoMessage),
          ⟨q.id, q.sem, q.pool.Get.2.Put q.pool.Get.1, q.config⟩,
          ⟨f, tr ++ [Event.acquire, Event.sys (Call.msgrcv (toUintptr q.id) 1024
              q.config.MsgType (recvFlags q.config)), Event.release]⟩) := by
  have hacq := Acquire_of_permit fuel q.sem hsem.1 hsem.2
  have hrcv : sysv.msgrcv (toUintptr q.id) q.pool.Get.1 1024 q.config.MsgType
      (recvFlags q.config) f = some ((failed, ENOMSG, q.pool.Get.1), f) := by
    show SysV.msgrcv (toUintptr q.id) q.pool.Get.1 1024 q.config.MsgType
      (recvFlags q.config) f = _
    unfold SysV.msgrcv
    rw [if_neg (by simp [he, hid])]
    simp only [hsel]
    rw [if_pos ((recvFlags_cases q.config).2.2 hb)]
  have h := Dequeue_after sysv strerror (fuel + 1) 0 q ⟨f, tr⟩ _ q.pool.Get.1 f _ _ _ _
    hacq rfl hrcv (by decide) (by omega)
  rw [h]
  have hrel : (⟨q.sem.counter - 1⟩ : highPerfSem).Release = q.sem := by
    unfold highPerfSem.Release addInt32
    have : (q.sem.counter - 1 + 1 + 2 ^ 31) % 2 ^ 32 - 2 ^ 31 = q.sem.counter := by omega
    simp only [this]
  rw [hrel]
  have hres : dequeueResult strerror q.config failed ENOMSG q.pool.Get.1
      = Outcome.ret (none, some GoError.ErrNoMessage) := rfl
  rw [hres]
  simp

theorem Close_sysv_open (strerror : Errno → String) (q : MessageQueue) (f : SysV)
    (tr : List Event) (he : f.exist = true) (hid : f.msqid = toUintptr q.id) :
    Close sysv strerror q ⟨f, tr⟩
      = some (none, q, ⟨⟨false, f.key, f.msqid, [], f.qbytes, f.msgmax, f.adjacent⟩,
          tr ++ [Event.sys (Call.msgctl (toUintptr q.id) IPC_RMID)]⟩) := by
  have h : sysv.msgctl (toUintptr q.id) IPC_RMID f
      = some (0, ⟨false, f.key, f.msqid, [], f.qbytes, f.msgmax, f.adjacent⟩) := by
    show SysV.msgctl (toUintptr q.id) IPC_RMID f = _
    unfold SysV.msgctl
    rw [if_neg (by simp [he, hid]), if_pos rfl]
  unfold Close
  simp only [h]
  rfl

theorem Close_sysv_closed (strerror : Errno → String) (q : MessageQueue) (f : SysV)
    (tr : List Event) (he : f.exist = false) :
    Close sysv strerror q ⟨f, tr⟩
      = some (some (GoError.errorf "msgctl(RMID) failed: invalid parameters (code=22)"), q,
          ⟨f, tr ++ [Event.sys (Call.msgctl (toUintptr q.id) IPC_RMID)]⟩) := by
  have h : sysv.msgctl (toUintptr q.id) IPC_RMID f = some (EINVAL, f) := by
    show SysV.msgctl (toUintptr q.id) IPC_RMID f = _
    unfold SysV.msgctl
    rw [if_pos (by simp [he])]
  unfold Close
  simp only [h]
  rw [if_pos (by decide), handleErrno_EINVAL]
  rfl

theorem Enqueue_sysv_closed (strerror : Errno → String) (q : MessageQueue) (P : List Byte)
    (f : SysV) (tr : List Event) (he : f.exist = false)
    (hlen : (P.length : Int) ≤ q.config.MaxSize) :
    Enqueue sysv strerror q P ⟨f, tr⟩
      = some (some (GoError.errorf "msgsnd failed: invalid parameters (code=22)"),
          ⟨q.id, q.sem, q.pool.Get.2.Put ((q.pool.Get.1.setType q.config.MsgType).copyIn P),
            q.config⟩,
          ⟨f, tr ++ [Event.sys (Call.msgsnd (toUintptr q.id) P.length IPC_NOWAIT)]⟩) := by
  have h : sysv.msgsnd (toUintptr q.id) ((q.pool.Get.1.setType q.config.MsgType).copyIn P)
      P.length IPC_NOWAIT f = some (EINVAL, f) := by
    show SysV.msgsnd (toUintptr q.id) ((q.pool.Get.1.setType q.config.MsgType).copyIn P)
      P.length IPC_NOWAIT f = _
    unfold SysV.msgsnd
    rw [if_pos (by simp [he])]
  unfold Enqueue
  rw [if_neg (by omega)]
  simp only [h]
  rw [handleErrno_EINVAL]
  rfl

theorem Dequeue_sysv_closed (strerror : Errno → String) (fuel : Nat) (q : MessageQueue)
    (f : SysV) (tr : List Event) (he : f.exist = false)
    (hsem : 1 ≤ q.sem.counter ∧ q.sem.counter < 2 ^ 31) :
    Dequeue sysv strerror (fuel + 1) q ⟨f, tr⟩
      = some (Outcome.ret (none,
            some (GoError.errorf "msgrcv failed: invalid parameters (code=22)")),
          ⟨q.id, q.sem, q.pool.Get.2.Put q.pool.Get.1, q.config⟩,
          ⟨f, tr ++ [Event.acquire, Event.sys (Call.msgrcv (toUintptr q.id) 1024
              q.config.MsgType (recvFlags q.config)), Event.release]⟩) := by
  have hacq := Acquire_of_permit fuel q.sem hsem.1 hsem.2
  have hrcv : sysv.msgrcv (toUintptr q.id) q.pool.Get.1 1024 q.config.MsgType
      (recvFlags q.config) f = some ((failed, EINVAL, q.pool.Get.1), f) := by
    show SysV.msgrcv (toUintptr q.id) q.pool.Get.1 1024 q.config.MsgType
      (recvFlags q.config) f = _
    unfold SysV.msgrcv
    rw [if_pos (by simp [he])]
  have h := Dequeue_after sysv strerror (fuel + 1) 0 q ⟨f, tr⟩ _ q.pool.Get.1 f _ _ _ _
    hacq rfl hrcv (by decide) (by omega)
  rw [h]
  have hrel : (⟨q.sem.counter - 1⟩ : highPerfSem).Release = q.sem := by
    unfold highPerfSem.Release addInt32
    have : (q.sem.counter - 1 + 1 + 2 ^ 31) % 2 ^ 32 - 2 ^ 31 = q.sem.counter := by omega
    simp only [this]
  rw [hrel]
  have hres : dequeueResult strerror q.config failed EINVAL q.pool.Get.1
      = Outcome.ret (none,
          some (GoError.errorf "msgrcv failed: invalid parameters (code=22)")) := by
    unfold dequeueResult
    rw [if_pos (by decide), if_neg (by decide), handleErrno_EINVAL]
    rfl
  rw [hres]
  simp

theorem Dequeue_test_empty :
    Dequeue sysv errnoText 1 testQueue ⟨openSysV, []⟩
      = some (Outcome.ret (none, some GoError.ErrNoMessage),
          ⟨7, newHighPerfSem 10000, [sysVsdMsg.zero], testConfig⟩,
          ⟨openSysV, [Event.acquire, Event.sys (Call.msgrcv 7 1024 100 6144),
            Event.release]⟩) :=
  Dequeue_after sysv errnoText 1 0 testQueue ⟨openSysV, []⟩ ⟨9999⟩ sysVsdMsg.zero
    openSysV failed ENOMSG sysVsdMsg.zero openSysV (by decide) rfl
    (sysv_msgrcv_empty openSysV sysVsdMsg.zero testConfig 7 rfl rfl rfl (by decide)
      (fun m hm => absurd hm (List.not_mem_nil m)))
    (by decide) (by decide)

theorem NewQueue_zeroConfig :
    NewQueue sysv errnoText zeroConfig ⟨freshSysV, []⟩
      = some ((some zeroQueue, none), ⟨openSysV, [Event.sys (Call.msgget 0x1234 950)]⟩) := by
  rfl

theorem bigMessage_length : bigMessage.length = 1025 := List.length_replicate 1025 1

/-! ## Runs of several calls -/

theorem enqueueAll_cons {σ : Type} (K : Kernel σ) (strerror : Errno → String)
    (P : List Byte) (rest : List (List Byte)) (q q1 q2 : MessageQueue) (w w1 w2 : World σ)
    (e : Option GoError) (es : List (Option GoError))
    (h1 : Enqueue K strerror q P w = some (e, q1, w1))
    (h2 : enqueueAll K strerror rest q1 w1 = some (es, q2, w2)) :
    enqueueAll K strerror (P :: rest) q w = some (e :: es, q2, w2) := by
  simp only [enqueueAll, h1, h2]

theorem enqueueAll_sysv (strerror : Errno → String) (Ps : List (List Byte)) :
    ∀ (q : MessageQueue) (f : SysV) (tr : List Event) (es : List (Option GoError))
      (q1 : MessageQueue) (w1 : World SysV),
      enqueueAll sysv strerror Ps q ⟨f, tr⟩ = some (es, q1, w1) →
      q1.id = q.id ∧ q1.sem = q.sem ∧ q1.config = q.config ∧ es.length = Ps.length ∧
      ∃ ms : List Message,
        w1.kern = ⟨f.exist, f.key, f.msqid, f.msgs ++ ms, f.qbytes, f.msgmax, f.adjacent⟩ ∧
        ms.length = successes es ∧
        (∀ m ∈ ms, m.mtype = q.config.MsgType ∧ (m.mtext.length : Int) ≤ q.config.MaxSize) ∧
        (ms ≠ [] → 1 ≤ q.config.MsgType) ∧
        ms.map (fun m => m.mtext.take 1024) = delivered Ps es := by
  induction Ps with
  | nil =>
    intro q f tr es q1 w1 h
    simp only [enqueueAll, Option.some.injEq, Prod.mk.injEq] at h
    obtain ⟨rfl, rfl, rfl⟩ := h
    exact ⟨rfl, rfl, rfl, rfl, [], by simp, rfl, by simp, by simp, rfl⟩
  | cons P rest ih =>
    intro q f tr es q1 w1 h
    unfold enqueueAll at h
    cases h1 : Enqueue sysv strerror q P ⟨f, tr⟩ with
    | none => simp [h1] at h
    | some r1 =>
      obtain ⟨e, qa, wa⟩ := r1
      simp only [h1] at h
      cases h2 : enqueueAll sysv strerror rest qa wa with
      | none => simp [h2] at h
      | some r2 =>
        obtain ⟨es2, qb, wb⟩ := r2
        simp only [h2, Option.some.injEq, Prod.mk.injEq] at h
        obtain ⟨rfl, rfl, rfl⟩ := h
        obtain ⟨hi, hs, hc, hcase⟩ := Enqueue_sysv strerror q P f tr e qa wa h1
        have hwa : (⟨wa.kern, wa.trace⟩ : World SysV) = wa := rfl
        rw [← hwa] at h2
        obtain ⟨hi2, hs2, hc2, hl2, ms, hk, hn, hall, hty, hdel⟩ :=
          ih qa wa.kern wa.trace es2 qb wb h2
        refine ⟨hi2.trans hi, hs2.trans hs, hc2.trans hc, by simp [hl2], ?_⟩
        rcases hcase with ⟨rfl, -, -, hty1, hlen1, hslen, hka⟩ | ⟨hne, hka⟩
        · refine ⟨storedMessage q.config q.pool.Get.1 P f.adjacent :: ms, ?_, ?_, ?_, ?_, ?_⟩
          · rw [hk, hka]
            simp
          · simp [successes, hn]
          · intro m hm
            rcases List.mem_cons.mp hm with rfl | hm
            · exact ⟨rfl, by rw [hslen]; exact hlen1⟩
            · rw [← hc]
              exact hall m hm
          · intro _
            exact hty1
          · simp only [List.map_cons, delivered, hdel, storedMessage_take]
        · obtain ⟨t, rfl⟩ : ∃ t, e = some t := by
            cases e with
            | none => exact absurd rfl hne
            | some t => exact ⟨t, rfl⟩
          refine ⟨ms, ?_, ?_, ?_, ?_, ?_⟩
          · rw [hk, hka]
          · simp [successes, hn]
          · intro m hm
            rw [← hc]
            exact hall m hm
          · intro hms
            rw [← hc]
            exact hty hms
          · simp only [delivered, hdel]

theorem dequeueN_sysv (strerror : Errno → String) (fuel : Nat) (ms : List Message) :
    ∀ (q : MessageQueue) (f : SysV) (tr : List Event),
      (1 ≤ q.config.MaxSize ∧ q.config.MaxSize ≤ 65536) →
      (1 ≤ q.sem.counter ∧ q.sem.counter < 2 ^ 31) →
      f.exist = true → f.msqid = toUintptr q.id → f.msgs = ms →
      (∀ m ∈ ms, m.mtype = q.config.MsgType ∧ (m.mtext.length : Int) ≤ q.config.MaxSize) →
      (ms ≠ [] → 1 ≤ q.config.MsgType) →
      ∃ q2 tr2, dequeueN sysv strerror (fuel + 1) ms.length q ⟨f, tr⟩
          = some (ms.map (fun m => Outcome.ret (some (m.mtext.take 1024), none)), q2,
              ⟨⟨f.exist, f.key, f.msqid, [], f.qbytes, f.msgmax, f.adjacent⟩, tr2⟩) ∧
        q2.id = q.id ∧ q2.sem = q.sem ∧ q2.config = q.config := by
  induction ms with
  | nil =>
    intro q f tr _ _ _ _ hm _ _
    refine ⟨q, tr, ?_, rfl, rfl, rfl⟩
    simp only [List.length_nil, dequeueN, List.map_nil]
    rw [← hm]
  | cons m rest ih =>
    intro q f tr hcfg hsem hex hid hm hall hty
    have hm1 := hall m (List.mem_cons_self m rest)
    have hsel : selectMsg q.config.MsgType (recvFlags q.config) f.msgs = some (m, rest) := by
      rw [hm]
      exact selectMsg_head q.config m rest (hty (by simp)) hm1.1
    have hlen : ((m.mtext.take 1024).length : Int) ≤ q.config.MaxSize := by
      have := hm1.2
      rw [List.length_take]
      omega
    have hd := Dequeue_sysv_delivers strerror fuel q f tr m rest hcfg hsem hex hid hsel hlen
    obtain ⟨q2, tr2, hrest, hi2, hs2, hc2⟩ :=
      ih ⟨q.id, q.sem, q.pool.Get.2.Put q.pool.Get.1, q.config⟩
        ⟨f.exist, f.key, f.msqid, rest, f.qbytes, f.msgmax, f.adjacent⟩
        (tr ++ [Event.acquire, Event.sys (Call.msgrcv (toUintptr q.id) 1024
          q.config.MsgType (recvFlags q.config)), Event.release])
        hcfg hsem hex hid rfl
        (fun x hx => hall x (List.mem_cons_of_mem m hx))
        (fun hne => hty (by simp))
    refine ⟨q2, tr2, ?_, hi2, hs2, hc2⟩
    simp only [List.length_cons, dequeueN, hd, hrest, List.map_cons]

theorem delivered_length (Ps : List (List Byte)) :
    ∀ es : List (Option GoError), es.length = Ps.length →
      (delivered Ps es).length = successes es := by
  induction Ps with
  | nil =>
    intro es h
    cases es with
    | nil => rfl
    | cons e es => simp at h
  | cons P rest ih =>
    intro es h
    cases es with
    | nil => simp at h
    | cons e es =>
      have h1 : es.length = rest.length := by simpa using h
      cases e with
      | none => simp [delivered, successes, ih es h1]
      | some t => simp [delivered, successes, ih es h1]

theorem delivered_all (Ps : List (List Byte)) :
    ∀ es : List (Option GoError), es.length = Ps.length → (∀ e ∈ es, e = none) →
      successes es = Ps.length ∧ delivered Ps es = Ps.map (List.take 1024) := by
  induction Ps with
  | nil =>
    intro es h _
    cases es with
    | nil => exact ⟨rfl, rfl⟩
    | cons e es => simp at h
  | cons P rest ih =>
    intro es h hall
    cases es with
    | nil => simp at h
    | cons e es =>
      have h1 : es.length = rest.length := by simpa using h
      have he : e = none := hall e (List.mem_cons_self e es)
      subst he
      obtain ⟨h2, h3⟩ := ih es h1 (fun x hx => hall x (List.mem_cons_of_mem _ hx))
      exact ⟨by simp [successes, h2], by simp [delivered, h3]⟩

theorem enqueueAll_test :
    ∃ q1 w1, enqueueAll sysv errnoText [testMessage, [109, 115, 103, 48]] testQueue
      ⟨openSysV, []⟩ = some ([none, none], q1, w1) := by
  obtain ⟨qa, fa, tra, h1, hc, hi, hex, hid, hmax, hadj, hqb, hcb, hn⟩ :=
    Enqueue_sysv_next errnoText testQueue testMessage openSysV []
      (by decide) rfl rfl (by decide) (by decide)
      (Nat.le_add_right_of_le (by decide)) (by decide) (by decide)
  obtain ⟨qb, fb, trb, h2, -⟩ :=
    Enqueue_sysv_next errnoText qa [109, 115, 103, 48] fa tra
      (by rw [hc]; decide) hex (by rw [hid, hi]; rfl) (by rw [hc]; decide)
      (by rw [hmax]; decide) (Nat.le_add_right_of_le (by decide))
      (by rw [hcb, hqb]; decide) (by rw [hn, hqb]; decide)
  exact ⟨qb, ⟨fb, trb⟩, enqueueAll_cons _ _ _ _ _ _ _ _ _ _ _ _ h1
    (enqueueAll_cons _ _ _ _ _ _ _ _ _ _ _ _ h2 rfl)⟩

/-! ## Round trip -/

/-- Where the round trip holds. On the model facility, for a client with a valid
configuration and a free permit, and a payload of at most 1024 bytes within
`MaxSize`: when the queue holds no message of the configured type and `Enqueue`
succeeds, the `Dequeue` that follows returns the payload byte for byte, with no
error, and leaves the facility as it was before the `Enqueue`. -/
theorem roundtrip (strerror : Errno → String) (fuel : Nat) (q : MessageQueue) (f : SysV)
    (tr : List Event) (P : List Byte) (q1 : MessageQueue) (w1 : World SysV)
    (hcfg : 1 ≤ q.config.MaxSize ∧ q.config.MaxSize ≤ 65536)
    (hsem : 1 ≤ q.sem.counter ∧ q.sem.counter < 2 ^ 31)
    (hlen : (P.length : Int) ≤ q.config.MaxSize) (hbuf : P.length ≤ 1024)
    (hother : ∀ m ∈ f.msgs, m.mtype ≠ q.config.MsgType)
    (henq : Enqueue sysv strerror q P ⟨f, tr⟩ = some (none, q1, w1)) :
    Dequeue sysv strerror (fuel + 1) q1 w1
      = some (Outcome.ret (some P, none),
          ⟨q.id, q.sem, q1.pool.Get.2.Put q1.pool.Get.1, q.config⟩,
          ⟨f, w1.trace ++ [Event.acquire, Event.sys (Call.msgrcv (toUintptr q.id) 1024
              q.config.MsgType (recvFlags q.config)), Event.release]⟩) := by
  obtain ⟨hi, hs, hc, hcase⟩ := Enqueue_sysv strerror q P f tr none q1 w1 henq
  rcases hcase with ⟨-, hex, hid, hty, -, hslen, hk⟩ | ⟨hne, -⟩
  · have hst : (storedMessage q.config q.pool.Get.1 P f.adjacent).mtext = P :=
      stored_of_fits _ P f.adjacent q.pool.Get.1.mtext_len hbuf
    have htake : (storedMessage q.config q.pool.Get.1 P f.adjacent).mtext.take 1024 = P := by
      rw [hst]
      exact List.take_of_length_le hbuf
    have hsel : selectMsg q1.config.MsgType (recvFlags q1.config) w1.kern.msgs
        = some (storedMessage q.config q.pool.Get.1 P f.adjacent, f.msgs) := by
      rw [hc, hk]
      exact selectMsg_last q.config f.msgs _ hty rfl hother
    have h := Dequeue_sysv_delivers strerror fuel q1 w1.kern w1.trace _ _
      (by rw [hc]; exact hcfg) (by rw [hs]; exact hsem) (by rw [hk]; exact hex)
      (by rw [hk, hi]; exact hid) hsel (by rw [htake, hc]; exact hlen)
    have hw : (⟨w1.kern, w1.trace⟩ : World SysV) = w1 := rfl
    rw [hw, htake] at h
    rw [h, hi, hs, hc, hk]
  · exact absurd rfl hne

/-- The round trip on the input of the test: "test message" comes back. -/
theorem roundtrip_witness :
    ∃ q1 w1 q2 w2,
      Enqueue sysv errnoText testQueue testMessage ⟨openSysV, []⟩ = some (none, q1, w1) ∧
      Dequeue sysv errnoText 1 q1 w1 = some (Outcome.ret (some testMessage, none), q2, w2) :=
  have henq := Enqueue_sysv_ok errnoText testQueue testMessage openSysV []
    (by decide) rfl rfl (by decide) (by decide)
    (Nat.le_add_right_of_le (by decide)) (by decide) (by decide)
  ⟨_, _, _, _, henq,
    roundtrip errnoText 0 testQueue openSysV [] testMessage _ _ (by decide) (by decide)
      (by decide) (by decide) (fun m hm => absurd hm (List.not_mem_nil m)) henq⟩

/-- C1. Round-trip fidelity for every payload within `MaxSize` does not hold of
the code. With the configuration of the test, a payload of 1025 bytes is within
`MaxSize = 10240`, its `Enqueue` succeeds, and the `Dequeue` that follows
returns its first 1024 bytes with no error, not the payload; on no facility
does `Dequeue` return that payload, since the buffer `mtext` holds 1024 bytes.
Apart from that, `NewQueue` accepts `MaxConns = 0`, and the client it returns
enqueues "test message" but its `Dequeue` never returns. -/
theorem roundtrip_fails :
    (NewQueue sysv errnoText zeroConfig ⟨freshSysV, []⟩
        = some ((some zeroQueue, none), ⟨openSysV, [Event.sys (Call.msgget 0x1234 950)]⟩) ∧
      ∃ q1 w1, Enqueue sysv errnoText zeroQueue testMessage ⟨openSysV, []⟩
          = some (none, q1, w1) ∧
        ∀ fuel, Dequeue sysv errnoText fuel q1 w1 = none) ∧
    (∃ q1 w1 R q2 w2, Enqueue sysv errnoText testQueue bigMessage ⟨openSysV, []⟩
        = some (none, q1, w1) ∧
      Dequeue sysv errnoText 1 q1 w1 = some (Outcome.ret (some R, none), q2, w2) ∧
      R = bigMessage.take 1024 ∧ R ≠ bigMessage ∧
      (bigMessage.length : Int) ≤ testQueue.config.MaxSize) ∧
    (∀ (σ : Type) (K : Kernel σ) (fuel : Nat) (q : MessageQueue) (w : World σ)
      (R : List Byte) (e : Option GoError) (q1 : MessageQueue) (w1 : World σ),
      Dequeue K errnoText fuel q w = some (Outcome.ret (some R, e), q1, w1) →
        R ≠ bigMessage) := by
  refine ⟨?_, ?_, ?_⟩
  · refine ⟨NewQueue_zeroConfig, _, _, Enqueue_sysv_ok errnoText zeroQueue testMessage
      openSysV [] (by decide) rfl rfl (by decide) (by decide)
      (Nat.le_add_right_of_le (by decide)) (by decide) (by decide), ?_⟩
    intro fuel
    exact Dequeue_spins sysv errnoText fuel _ _ (by decide) (by decide)
  · have hlen := bigMessage_length
    have henq := Enqueue_sysv_ok errnoText testQueue bigMessage openSysV []
      (by rw [hlen]; decide) rfl rfl (by decide) (by rw [hlen]; decide)
      (by rw [hlen]; simp [openSysV]) (by rw [hlen]; decide) (by decide)
    have htake : (storedMessage testQueue.config testQueue.pool.Get.1 bigMessage
        openSysV.adjacent).mtext.take 1024 = bigMessage.take 1024 :=
      storedMessage_take _ _ _ _
    have hdeq := Dequeue_sysv_delivers errnoText 0
      ⟨testQueue.id, testQueue.sem, testQueue.pool.Get.2.Put
        ((testQueue.pool.Get.1.setType testQueue.config.MsgType).copyIn bigMessage),
        testQueue.config⟩
      ⟨true, 0x1234, 7, [] ++ [storedMessage testQueue.config testQueue.pool.Get.1 bigMessage
        openSysV.adjacent], 16384, 8192, openSysV.adjacent⟩
      ([] ++ [Event.sys (Call.msgsnd (toUintptr testQueue.id) bigMessage.length IPC_NOWAIT)])
      (storedMessage testQueue.config testQueue.pool.Get.1 bigMessage openSysV.adjacent) []
      (by decide) (by decide) rfl rfl
      (selectMsg_last testQueue.config [] _ (by decide) rfl
        (fun m hm => absurd hm (List.not_mem_nil m)))
      (by
        rw [htake, List.length_take, hlen]
        decide)
    rw [htake] at hdeq
    refine ⟨_, _, _, _, _, henq, hdeq, rfl, ?_, by rw [hlen]; decide⟩
    intro hcon
    have := congrArg List.length hcon
    rw [List.length_take, hlen] at this
    omega
  · intro σ K fuel q w R e q1 w1 h hcon
    have hle := Dequeue_length_le K errnoText fuel q w R e q1 w1 h
    rw [hcon, bigMessage_length] at hle
    omega

/-! ## A client whose queue was removed -/

/-- C2. No operation returns `ErrQueueDestroyed`, on any facility. On the
model facility, once `Close` has removed the queue, `Enqueue`, `Dequeue` and
`Close` on the same client each fail with the classified facility error for
`EINVAL`; for the client of the test these are the three errors shown. -/
theorem closed_client_errors :
    (∀ (σ : Type) (K : Kernel σ) (strerror : Errno → String) (q : MessageQueue)
      (msg : List Byte) (w : World σ) (e : Option GoError) (q1 : MessageQueue) (w1 : World σ),
      Enqueue K strerror q msg w = some (e, q1, w1) → e ≠ some GoError.ErrQueueDestroyed) ∧
    (∀ (σ : Type) (K : Kernel σ) (strerror : Errno → String) (fuel : Nat) (q : MessageQueue)
      (w : World σ) (d : Option (List Byte)) (e : Option GoError) (q1 : MessageQueue)
      (w1 : World σ),
      Dequeue K strerror fuel q w = some (Outcome.ret (d, e), q1, w1) →
        e ≠ some GoError.ErrQueueDestroyed) ∧
    (∀ (σ : Type) (K : Kernel σ) (strerror : Errno → String) (q : MessageQueue)
      (w : World σ) (e : Option GoError) (q1 : MessageQueue) (w1 : World σ),
      Close K strerror q w = some (e, q1, w1) → e ≠ some GoError.ErrQueueDestroyed) ∧
    Close sysv errnoText testQueue ⟨openSysV, []⟩
      = some (none, testQueue, ⟨closedSysV, [Event.sys (Call.msgctl 7 IPC_RMID)]⟩) ∧
    (∃ q1 w1, Enqueue sysv errnoText testQueue testMessage
        ⟨closedSysV, [Event.sys (Call.msgctl 7 IPC_RMID)]⟩
      = some (some (GoError.errorf "msgsnd failed: invalid parameters (code=22)"), q1, w1)) ∧
    (∃ q1 w1, Dequeue sysv errnoText 1 testQueue
        ⟨closedSysV, [Event.sys (Call.msgctl 7 IPC_RMID)]⟩
      = some (Outcome.ret (none,
          some (GoError.errorf "msgrcv failed: invalid parameters (code=22)")), q1, w1)) ∧
    (∃ q1 w1, Close sysv errnoText testQueue
        ⟨closedSysV, [Event.sys (Call.msgctl 7 IPC_RMID)]⟩
      = some (some (GoError.errorf "msgctl(RMID) failed: invalid parameters (code=22)"),
          q1, w1)) := by
  refine ⟨?_, ?_, ?_, ?_, ?_, ?_, ?_⟩
  · intro σ K strerror q msg w e q1 w1 h
    unfold Enqueue at h
    split at h
    · simp only [Option.some.injEq, Prod.mk.injEq] at h
      obtain ⟨rfl, -, -⟩ := h
      simp
    · simp only at h
      split at h
      · simp at h
      · simp only [Option.some.injEq, Prod.mk.injEq] at h
        obtain ⟨rfl, -, -⟩ := h
        exact handleErrno_ne_sentinel strerror _ _ _
  · intro σ K strerror fuel q w d e q1 w1 h
    obtain ⟨sem1, n, errno, msg1, w2, -, -, hout, -, -⟩ :=
      Dequeue_inv K strerror fuel q w _ q1 w1 h
    unfold dequeueResult at hout
    split at hout
    · split at hout
      · simp only [Outcome.ret.injEq, Prod.mk.injEq] at hout
        rw [hout.2]
        simp
      · simp only [Outcome.ret.injEq, Prod.mk.injEq] at hout
        rw [hout.2]
        exact handleErrno_ne_sentinel strerror _ _ _
    · split at hout
      · simp only [Outcome.ret.injEq, Prod.mk.injEq] at hout
        rw [hout.2]
        simp
      · split at hout
        · simp at hout
        · simp only [Outcome.ret.injEq, Prod.mk.injEq] at hout
          rw [hout.2]
          simp
  · intro σ K strerror q w e q1 w1 h
    unfold Close at h
    split at h
    · simp at h
    · simp only at h
      split at h
      · simp only [Option.some.injEq, Prod.mk.injEq] at h
        obtain ⟨rfl, -, -⟩ := h
        exact handleErrno_ne_sentinel strerror _ _ _
      · simp only [Option.some.injEq, Prod.mk.injEq] at h
        obtain ⟨rfl, -, -⟩ := h
        simp
  · exact Close_sysv_open errnoText testQueue openSysV [] rfl rfl
  · exact ⟨_, _, Enqueue_sysv_closed errnoText testQueue testMessage closedSysV _ rfl
      (by decide)⟩
  · exact ⟨_, _, Dequeue_sysv_closed errnoText 0 testQueue closedSysV _ rfl (by decide)⟩
  · exact ⟨_, _, Close_sysv_closed errnoText testQueue closedSysV _ rfl⟩

/-! ## The empty queue -/

/-- C4. When a permit is available and, after any number of interrupted
attempts, the facility's receive reports `ENOMSG`, `Dequeue` returns
`(nil, ErrNoMessage)`: the sentinel whose text is "no message available".
`handleErrno` never produces the sentinel nor an error with its text. The
model facility reports `ENOMSG` for a non-blocking receive on a queue with no
message of the configured type. -/
theorem Dequeue_no_message {σ : Type} (K : Kernel σ) (strerror : Errno → String) :
    (∀ (fuel k : Nat) (q : MessageQueue) (w : World σ) (sem1 : highPerfSem)
      (msgk : sysVsdMsg) (sk : σ) (n : Nat) (msg1 : sysVsdMsg) (s1 : σ),
      q.sem.Acquire fuel = some sem1 →
      afterInterrupts K (toUintptr q.id) 1024 q.config.MsgType (recvFlags q.config) k
        q.pool.Get.1 w.kern = some (msgk, sk) →
      K.msgrcv (toUintptr q.id) msgk 1024 q.config.MsgType (recvFlags q.config) sk
        = some ((n, ENOMSG, msg1), s1) →
      k + 1 ≤ fuel →
      Dequeue K strerror fuel q w = some (Outcome.ret (none, some GoError.ErrNoMessage),
        ⟨q.id, sem1.Release, q.pool.Get.2.Put q.pool.Get.1, q.config⟩,
        ⟨s1, w.trace ++ [Event.acquire] ++ List.replicate (k + 1) (Event.sys
          (Call.msgrcv (toUintptr q.id) 1024 q.config.MsgType (recvFlags q.config)))
          ++ [Event.release]⟩)) ∧
    GoError.ErrNoMessage.Error = "no message available" ∧
    (∀ (errno : Errno) (op : String) (args : List String) (e : GoError),
      handleErrno strerror errno op args = some e →
        e ≠ GoError.ErrNoMessage ∧ e.Error ≠ GoError.ErrNoMessage.Error) ∧
    (∀ (q : MessageQueue) (f : SysV) (buf : sysVsdMsg), f.exist = true →
      f.msqid = toUintptr q.id → q.config.Block = false → 0 < q.config.MsgType →
      (∀ m ∈ f.msgs, m.mtype ≠ q.config.MsgType) →
      sysv.msgrcv (toUintptr q.id) buf 1024 q.config.MsgType (recvFlags q.config) f
        = some ((failed, ENOMSG, buf), f)) := by
  refine ⟨?_, rfl, ?_, ?_⟩
  · intro fuel k q w sem1 msgk sk n msg1 s1 hacq hk hr hfuel
    have h := Dequeue_after K strerror fuel k q w sem1 msgk sk n ENOMSG msg1 s1 hacq hk hr
      (by decide) hfuel
    rw [h]
    rfl
  · intro errno op args e he
    obtain ⟨t, rfl, ht⟩ := handleErrno_colon strerror errno op args e he
    refine ⟨by simp, ?_⟩
    intro heq
    simp only [GoError.Error] at heq
    rw [heq] at ht
    revert ht
    decide
  · intro q f buf he hid hb ht hn
    exact sysv_msgrcv_empty f buf q.config (toUintptr q.id) he hid hb ht hn

/-- C4 on the client of the test and the empty queue. -/
theorem Dequeue_no_message_witness :
    Dequeue sysv errnoText 1 testQueue ⟨openSysV, []⟩
      = some (Outcome.ret (none, some GoError.ErrNoMessage),
          ⟨7, newHighPerfSem 10000, [sysVsdMsg.zero], testConfig⟩,
          ⟨openSysV, [Event.acquire, Event.sys (Call.msgrcv 7 1024 100 6144),
            Event.release]⟩) :=
  (Dequeue_no_message sysv errnoText).1 1 0 testQueue ⟨openSysV, []⟩ ⟨9999⟩ sysVsdMsg.zero
    openSysV failed sysVsdMsg.zero openSysV (by decide) rfl
    (sysv_msgrcv_empty openSysV sysVsdMsg.zero testConfig 7 rfl rfl rfl (by decide)
      (fun m hm => absurd hm (List.not_mem_nil m)))
    (by decide)

/-! ## No message lost -/

/-- C5, as amended. On the model facility, for a non-blocking client with a
valid configuration and a free permit on an existing, empty queue: after a run
of `Enqueue` calls of which `N` returned no error, and no `Dequeue` in
between, the next `N` `Dequeue` calls each return a message with no error (the
payloads that were accepted, in order, each cut to the 1024 bytes a receive
takes), and the call after them returns `ErrNoMessage`. When every `Enqueue`
succeeded, `N` is the number of payloads. -/
theorem no_message_lost (strerror : Errno → String) (fuel : Nat) (q : MessageQueue)
    (f : SysV) (tr : List Event) (Ps : List (List Byte)) (es : List (Option GoError))
    (q1 : MessageQueue) (w1 : World SysV)
    (hcfg : 1 ≤ q.config.MaxSize ∧ q.config.MaxSize ≤ 65536)
    (hsem : 1 ≤ q.sem.counter ∧ q.sem.counter < 2 ^ 31)
    (hblock : q.config.Block = false)
    (hex : f.exist = true) (hid : f.msqid = toUintptr q.id) (hempty : f.msgs = [])
    (henq : enqueueAll sysv strerror Ps q ⟨f, tr⟩ = some (es, q1, w1)) :
    (∃ q2 w2 q3 w3,
      dequeueN sysv strerror (fuel + 1) (successes es) q1 w1
        = some ((delivered Ps es).map (fun R => Outcome.ret (some R, none)), q2, w2) ∧
      Dequeue sysv strerror (fuel + 1) q2 w2
        = some (Outcome.ret (none, some GoError.ErrNoMessage), q3, w3)) ∧
    (delivered Ps es).length = successes es ∧
    ((∀ e ∈ es, e = none) →
      successes es = Ps.length ∧ delivered Ps es = Ps.map (List.take 1024)) := by
  obtain ⟨hi, hs, hc, hl, ms, hk, hn, hall, hty, hdel⟩ :=
    enqueueAll_sysv strerror Ps q f tr es q1 w1 henq
  refine ⟨?_, delivered_length Ps es hl, delivered_all Ps es hl⟩
  rw [hempty, List.nil_append] at hk
  have hw : (⟨w1.kern, w1.trace⟩ : World SysV) = w1 := rfl
  obtain ⟨q2, tr2, hdq, hi2, hs2, hc2⟩ := dequeueN_sysv strerror fuel ms q1 w1.kern w1.trace
    (by rw [hc]; exact hcfg) (by rw [hs]; exact hsem) (by rw [hk]; exact hex)
    (by rw [hk, hi]; exact hid) (by rw [hk]) (by rw [hc]; exact hall)
    (by rw [hc]; exact hty)
  rw [hw, hn] at hdq
  have hmap : ms.map (fun m => Outcome.ret (some (m.mtext.take 1024), (none : Option GoError)))
      = (delivered Ps es).map (fun R => Outcome.ret (some R, none)) := by
    rw [← hdel, List.map_map]
    rfl
  rw [hmap] at hdq
  have hfin := Dequeue_sysv_empty strerror fuel q2
    ⟨w1.kern.exist, w1.kern.key, w1.kern.msqid, [], w1.kern.qbytes, w1.kern.msgmax,
      w1.kern.adjacent⟩ tr2
    (by rw [hs2, hs]; exact hsem) (by rw [hk]; exact hex)
    (by rw [hk, hi2, hi]; exact hid) (by rw [hc2, hc]; exact hblock) (selectMsg_nil _ _)
  exact ⟨q2, _, _, _, hdq, hfin⟩

/-- C5 as amended, on two payloads: "test message" and "msg0". -/
theorem no_message_lost_witness :
    ∃ q1 w1 q2 w2 q3 w3,
      enqueueAll sysv errnoText [testMessage, [109, 115, 103, 48]] testQueue ⟨openSysV, []⟩
        = some ([none, none], q1, w1) ∧
      dequeueN sysv errnoText 1 2 q1 w1
        = some ([Outcome.ret (some (testMessage.take 1024), none),
            Outcome.ret (some (List.take 1024 [109, 115, 103, 48]), none)], q2, w2) ∧
      Dequeue sysv errnoText 1 q2 w2
        = some (Outcome.ret (none, some GoError.ErrNoMessage), q3, w3) :=
  have ⟨q1, w1, henq⟩ := enqueueAll_test
  have ⟨q2, w2, q3, w3, h1, h2⟩ :=
    (no_message_lost errnoText 0 testQueue openSysV [] [testMessage, [109, 115, 103, 48]]
      [none, none] q1 w1 (by decide) (by decide) rfl rfl rfl rfl henq).1
  ⟨q1, w1, q2, w2, q3, w3, henq, h1, h2⟩

/-- The claim C5 fails on a client with no permit: `NewQueue` accepts
`MaxConns = 0`, and on the empty queue the first `Dequeue` never returns, so it
does not return `ErrNoMessage`. -/
theorem no_message_lost_fails :
    NewQueue sysv errnoText zeroConfig ⟨freshSysV, []⟩
        = some ((some zeroQueue, none), ⟨openSysV, [Event.sys (Call.msgget 0x1234 950)]⟩) ∧
    zeroQueue.config.Block = false ∧ openSysV.msgs = [] ∧
    enqueueAll sysv errnoText [] zeroQueue ⟨openSysV, [Event.sys (Call.msgget 0x1234 950)]⟩
        = some ([], zeroQueue, ⟨openSysV, [Event.sys (Call.msgget 0x1234 950)]⟩) ∧
    ∀ fuel, Dequeue sysv errnoText fuel zeroQueue
        ⟨openSysV, [Event.sys (Call.msgget 0x1234 950)]⟩ = none :=
  ⟨NewQueue_zeroConfig, rfl, rfl, rfl,
    fun fuel => Dequeue_spins sysv errnoText fuel _ _ (by decide) (by decide)⟩

/-! ## The admission bound -/

theorem count_set_position (l : List Position) (i : Nat) (p a b : Position)
    (h : l[i]? = some p) :
    (List.count b (l.set i a) : Int) = (List.count b l : Int) - (if p = b then 1 else 0)
      + (if a = b then 1 else 0) := by
  obtain ⟨hi, hp⟩ := List.getElem?_eq_some_iff.mp h
  rw [List.count_set a b l i hi]
  have hpos : p = b → 1 ≤ List.count b l := by
    intro hpb
    subst hpb
    exact List.count_pos_iff.mpr (hp ▸ List.getElem_mem hi)
  rw [hp]
  by_cases h1 : p = b
  · have h3 := hpos h1
    by_cases h2 : a = b
    · simp only [h1, h2, beq_self_eq_true, if_true, Bool.false_eq_true, if_false]
      omega
    · have h4 : (a == b) = false := by simpa using h2
      simp only [h1, h2, h4, beq_self_eq_true, if_true, Bool.false_eq_true, if_false]
      omega
  · have h5 : (p == b) = false := by simpa using h1
    by_cases h2 : a = b
    · simp only [h1, h2, h5, beq_self_eq_true, if_true, Bool.false_eq_true, if_false]
      omega
    · have h4 : (a == b) = false := by simpa using h2
      simp only [h1, h2, h4, h5, Bool.false_eq_true, if_false]
      omega

theorem step_inv (K : Int) (s : SemState) (i : Nat) (hinv : SemInv K s)
    (hex : s.exactStep i) : SemInv K (s.step i) := by
  unfold SemState.step
  unfold SemState.exactStep at hex
  cases hget : s.callers[i]? with
  | none => simpa [hget] using hinv
  | some p =>
    obtain ⟨h1, h2⟩ := hinv
    have hc := fun a b => count_set_position s.callers i p a b hget
    rw [hget] at hex
    cases p with
    | idle =>
      simp only [stepCaller, SemInv, hc]
      simp only [reduceCtorEq, if_false]
      constructor <;> omega
    | trying =>
      simp only at hex
      simp only [stepCaller, hex]
      by_cases hge : s.counter - 1 ≥ 0
      · simp only [hge, if_true, SemInv, hc, reduceCtorEq, if_false]
        constructor <;> omega
      · simp only [hge, if_false, SemInv, hc, reduceCtorEq, if_true]
        constructor <;> omega
    | undoing =>
      simp only at hex
      simp only [stepCaller, hex, SemInv, hc, reduceCtorEq, if_false, if_true]
      constructor <;> omega
    | holding =>
      simp only at hex
      simp only [stepCaller, hex, SemInv, hc, reduceCtorEq, if_false, if_true]
      constructor <;> omega

theorem run_inv (K : Int) (sched : List Nat) :
    ∀ s : SemState, SemInv K s → s.exactRun sched → SemInv K (s.run sched) := by
  induction sched with
  | nil => intro s h _; exact h
  | cons i rest ih =>
    intro s h hex
    exact ih (s.step i) (step_inv K s i h hex.1) hex.2

theorem init_inv (K : Int) (n : Nat) (hK : 0 ≤ K) : SemInv K (SemState.init K n) := by
  unfold SemInv SemState.init newHighPerfSem
  simp [List.count_replicate]
  exact hK

theorem count_three_le (l : List Position) :
    l.count Position.holding + l.count Position.undoing + l.count Position.trying
      ≤ l.length := by
  induction l with
  | nil => simp
  | cons p rest ih =>
    cases p <;> simp [List.count_cons] <;> omega

theorem count_pos_of_get (l : List Position) (i : Nat) (p : Position)
    (h : l[i]? = some p) : 1 ≤ l.count p := by
  obtain ⟨hi, hp⟩ := List.getElem?_eq_some_iff.mp h
  exact List.count_pos_iff.mpr (hp ▸ List.getElem_mem hi)

theorem exact_of_bound (K : Int) (n : Nat) (s : SemState) (i : Nat) (hinv : SemInv K s)
    (hb : SemBound K n s) : s.exactStep i := by
  unfold SemState.exactStep
  obtain ⟨h1, h2⟩ := hinv
  obtain ⟨hlen, hK, hn⟩ := hb
  have h3 := count_three_le s.callers
  cases hget : s.callers[i]? with
  | none => trivial
  | some p =>
    have h4 := count_pos_of_get s.callers i p hget
    cases p with
    | idle => trivial
    | trying =>
      simp only
      unfold addInt32
      omega
    | undoing =>
      simp only
      unfold addInt32
      omega
    | holding =>
      simp only
      unfold addInt32
      omega

theorem step_bound (K : Int) (n : Nat) (s : SemState) (i : Nat) (hb : SemBound K n s) :
    SemBound K n (s.step i) := by
  unfold SemState.step
  cases hget : s.callers[i]? with
  | none => simpa [hget] using hb
  | some p =>
    obtain ⟨hlen, hK, hn⟩ := hb
    exact ⟨by simp [hlen], hK, hn⟩

theorem exactRun_of_bound (K : Int) (n : Nat) (sched : List Nat) :
    ∀ s : SemState, SemInv K s → SemBound K n s → s.exactRun sched := by
  induction sched with
  | nil => intro s _ _; trivial
  | cons i rest ih =>
    intro s hinv hb
    have hex := exact_of_bound K n s i hinv hb
    exact ⟨hex, ih (s.step i) (step_inv K s i hinv hex) (step_bound K n s i hb)⟩

theorem exactRun_take (sched : List Nat) :
    ∀ (s : SemState) (m : Nat), s.exactRun sched → s.exactRun (sched.take m) := by
  induction sched with
  | nil => intro s m h; simpa using h
  | cons i rest ih =>
    intro s m h
    cases m with
    | zero => trivial
    | succ m => exact ⟨h.1, ih (s.step i) m h.2⟩

/-- C7. Admission bound. A semaphore made with `K >= 0` permits is used by `n`
callers whose atomic steps interleave in any order. If no step of the run wraps
the counter, which is so whenever `K < 2 ^ 31` and there are at most `2 ^ 31`
callers, then after every prefix of the run at most `K` callers are past
`Acquire` and before `Release`; with `K = 0` none is. -/
theorem admission_bound (K : Int) (n : Nat) (sched : List Nat) (hK : 0 ≤ K)
    (hex : (SemState.init K n).exactRun sched ∨ (K < 2 ^ 31 ∧ n ≤ 2 ^ 31)) :
    ∀ m : Nat, ((((SemState.init K n).run (sched.take m)).admitted : Nat) : Int) ≤ K ∧
      (K = 0 → ((SemState.init K n).run (sched.take m)).admitted = 0) := by
  have h0 := init_inv K n hK
  have hrun : (SemState.init K n).exactRun sched := by
    cases hex with
    | inl h => exact h
    | inr h =>
      exact exactRun_of_bound K n sched _ h0
        ⟨by simp [SemState.init], h.1, h.2⟩
  intro m
  have hinv := run_inv K (sched.take m) _ h0 (exactRun_take sched _ m hrun)
  have hle : ((((SemState.init K n).run (sched.take m)).admitted : Nat) : Int) ≤ K := hinv.2
  refine ⟨hle, ?_⟩
  intro hz
  omega

/-- C7 with one permit and two callers: after each has called `Acquire` and
tried the decrement, one holds the permit and the other is about to undo. -/
theorem admission_bound_witness :
    ((((SemState.init 1 2).run ([0, 1, 0, 1, 1, 1, 0, 1].take 4)).admitted : Nat) : Int) ≤ 1 ∧
    ((SemState.init 1 2).run [0, 1, 0, 1]).callers = [Position.holding, Position.undoing] :=
  ⟨(admission_bound 1 2 [0, 1, 0, 1, 1, 1, 0, 1] (by decide)
      (Or.inr ⟨by decide, by decide⟩) 4).1, by decide⟩

/-! ## Interrupted receives -/

/-- C9. When a permit is available, the first `k` receive attempts report
`EINTR` and attempt `k + 1` reports anything else, `Dequeue` issues exactly
`k + 1` receive attempts, all with the same arguments, and returns what the
last report alone determines: the same as any run in which that report is the
answer to the first attempt. A `Dequeue` that returns never classifies
`EINTR`: what it returns is determined by a report whose errno is not `EINTR`,
and, the errno being a `uintptr`, is not the error `handleErrno` makes of
`EINTR`. -/
theorem Dequeue_retries_interrupts {σ : Type} (K : Kernel σ) (strerror : Errno → String) :
    (∀ (fuel k : Nat) (q : MessageQueue) (w : World σ) (sem1 : highPerfSem)
      (msgk : sysVsdMsg) (sk : σ) (n : Nat) (errno : Errno) (msg1 : sysVsdMsg) (s1 : σ),
      q.sem.Acquire fuel = some sem1 →
      afterInterrupts K (toUintptr q.id) 1024 q.config.MsgType (recvFlags q.config) k
        q.pool.Get.1 w.kern = some (msgk, sk) →
      K.msgrcv (toUintptr q.id) msgk 1024 q.config.MsgType (recvFlags q.config) sk
        = some ((n, errno, msg1), s1) →
      errno ≠ EINTR → k + 1 ≤ fuel →
      Dequeue K strerror fuel q w = some (dequeueResult strerror q.config n errno msg1,
        ⟨q.id, sem1.Release, q.pool.Get.2.Put q.pool.Get.1, q.config⟩,
        ⟨s1, w.trace ++ [Event.acquire] ++ List.replicate (k + 1) (Event.sys
          (Call.msgrcv (toUintptr q.id) 1024 q.config.MsgType (recvFlags q.config)))
          ++ [Event.release]⟩) ∧
      (∀ (τ : Type) (K1 : Kernel τ) (v : World τ) (buf : sysVsdMsg) (t1 : τ) (fuel1 : Nat),
        1 ≤ fuel1 → q.sem.Acquire fuel1 = some sem1 →
        K1.msgrcv (toUintptr q.id) q.pool.Get.1 1024 q.config.MsgType (recvFlags q.config)
          v.kern = some ((n, errno, buf), t1) →
        buf.mtext = msg1.mtext →
        (Dequeue K1 strerror fuel1 q v).map (fun r => (r.1, r.2.1))
          = (Dequeue K strerror fuel q w).map (fun r => (r.1, r.2.1)) ∧
        (Dequeue K1 strerror fuel1 q v).map (fun r => r.2.2.trace)
          = some (v.trace ++ [Event.acquire, Event.sys (Call.msgrcv (toUintptr q.id) 1024
              q.config.MsgType (recvFlags q.config)), Event.release]))) ∧
    (∀ (fuel : Nat) (q : MessageQueue) (w : World σ)
      (out : Outcome (Option (List Byte) × Option GoError)) (q1 : MessageQueue)
      (w1 : World σ), Dequeue K strerror fuel q w = some (out, q1, w1) →
      ∃ n errno msg, errno ≠ EINTR ∧
        out = dequeueResult strerror q.config n errno msg ∧
        (K.typed → out ≠ Outcome.ret (none, handleErrno strerror EINTR "msgrcv" []))) := by
  constructor
  · intro fuel k q w sem1 msgk sk n errno msg1 s1 hacq hk hr hne hfuel
    have hmain := Dequeue_after K strerror fuel k q w sem1 msgk sk n errno msg1 s1 hacq hk hr
      hne hfuel
    refine ⟨hmain, ?_⟩
    intro τ K1 v buf t1 fuel1 hf1 hacq1 hr1 hbuf
    have h1 := Dequeue_after K1 strerror fuel1 0 q v sem1 q.pool.Get.1 v.kern n errno buf t1
      hacq1 rfl hr1 hne (by omega)
    rw [h1, hmain]
    have hres : dequeueResult strerror q.config n errno buf
        = dequeueResult strerror q.config n errno msg1 := by
      unfold dequeueResult
      rw [hbuf]
    simp [hres]
  · intro fuel q w out q1 w1 h
    obtain ⟨sem2, n2, errno2, msg2, w4, -, hrecv, hout, -, -⟩ :=
      Dequeue_inv K strerror fuel q w out q1 w1 h
    obtain ⟨hne2, -⟩ := recvLoop_result K _ _ _ _ fuel _ _ _ _ _ _ hrecv
    refine ⟨n2, errno2, msg2, hne2, hout, ?_⟩
    intro hK
    rw [hout]
    exact dequeueResult_ne_EINTR strerror q.config n2 errno2 msg2
      (recvLoop_typed K hK _ _ _ _ fuel _ _ _ _ _ _ hrecv) hne2

/-- C9 with two interrupted attempts before the facility reports `ENOMSG`. -/
theorem Dequeue_retries_interrupts_witness :
    Dequeue interrupted errnoText 3 testQueue ⟨(2, openSysV), []⟩
      = some (Outcome.ret (none, some GoError.ErrNoMessage),
          ⟨7, newHighPerfSem 10000, [sysVsdMsg.zero], testConfig⟩,
          ⟨(0, openSysV), [Event.acquire, Event.sys (Call.msgrcv 7 1024 100 6144),
            Event.sys (Call.msgrcv 7 1024 100 6144), Event.sys (Call.msgrcv 7 1024 100 6144),
            Event.release]⟩) :=
  ((Dequeue_retries_interrupts interrupted errnoText).1 3 2 testQueue ⟨(2, openSysV), []⟩
    ⟨9999⟩ sysVsdMsg.zero (0, openSysV) failed ENOMSG sysVsdMsg.zero (0, openSysV)
    (by decide) rfl
    (interrupted_msgrcv_zero _ _ _ _ _ _ _ _
      (sysv_msgrcv_empty openSysV sysVsdMsg.zero testConfig 7 rfl rfl rfl (by decide)
        (fun m hm => absurd hm (List.not_mem_nil m))))
    (by decide) (by decide)).1

/-! ## Permit balance -/

/-- C10. A `Dequeue` call that returns, whatever it returns, has added to the
trace one `Acquire`, then its receive attempts, then one `Release`, and leaves
the semaphore counter as it found it. `Enqueue` and `Close` add facility
calls only and leave the semaphore as it is. -/
theorem Dequeue_permit_balance {σ : Type} (K : Kernel σ) (strerror : Errno → String)
    (q : MessageQueue) (w : World σ) :
    (∀ (fuel : Nat) (out : Outcome (Option (List Byte) × Option GoError))
      (q1 : MessageQueue) (w1 : World σ), inInt32 q.sem.counter →
      Dequeue K strerror fuel q w = some (out, q1, w1) →
      q1.sem = q.sem ∧
      (∃ j, w1.trace = w.trace ++ [Event.acquire] ++ List.replicate (j + 1) (Event.sys
        (Call.msgrcv (toUintptr q.id) 1024 q.config.MsgType (recvFlags q.config)))
        ++ [Event.release]) ∧
      w1.trace.count Event.acquire = w.trace.count Event.acquire + 1 ∧
      w1.trace.count Event.release = w.trace.count Event.release + 1) ∧
    (∀ msg r q2 w2, Enqueue K strerror q msg w = some (r, q2, w2) →
      q2.sem = q.sem ∧ ∃ calls, w2.trace = w.trace ++ List.map Event.sys calls) ∧
    (∀ r q2 w2, Close K strerror q w = some (r, q2, w2) →
      q2.sem = q.sem ∧ ∃ calls, w2.trace = w.trace ++ List.map Event.sys calls) := by
  refine ⟨?_, ?_, ?_⟩
  · intro fuel out q1 w1 hc h
    obtain ⟨sem1, n, errno, msg1, w2, hacq, hrecv, -, rfl, rfl⟩ :=
      Dequeue_inv K strerror fuel q w out q1 w1 h
    obtain ⟨-, j, hj⟩ := recvLoop_result K _ _ _ _ fuel _ _ _ _ _ _ hrecv
    have htrace : (w2.log w2.kern Event.release).trace = w.trace ++ [Event.acquire]
        ++ List.replicate (j + 1) (Event.sys
          (Call.msgrcv (toUintptr q.id) 1024 q.config.MsgType (recvFlags q.config)))
        ++ [Event.release] := by
      simp only [World.log, hj]
    refine ⟨?_, ⟨j, htrace⟩, ?_, ?_⟩
    · obtain ⟨h1, -⟩ := Acquire_returns fuel q.sem sem1 hacq
      show sem1.Release = q.sem
      unfold highPerfSem.Release
      rw [h1, addInt32_release _ hc]
    · rw [htrace]
      simp [List.count_append, List.count_replicate]
    · rw [htrace]
      simp [List.count_append, List.count_replicate]
  · intro msg r q2 w2 he
    refine ⟨(Enqueue_config K strerror q msg w r q2 w2 he).2.1, ?_⟩
    unfold Enqueue at he
    split at he
    · simp only [Option.some.injEq, Prod.mk.injEq] at he
      obtain ⟨-, -, rfl⟩ := he
      exact ⟨[], by simp⟩
    · simp only at he
      split at he
      · simp at he
      · simp only [Option.some.injEq, Prod.mk.injEq] at he
        obtain ⟨-, -, rfl⟩ := he
        exact ⟨[_], rfl⟩
  · intro r q2 w2 he
    refine ⟨by rw [Close_config K strerror q w r q2 w2 he], ?_⟩
    unfold Close at he
    split at he
    · simp at he
    · simp only at he
      split at he <;>
      · simp only [Option.some.injEq, Prod.mk.injEq] at he
        obtain ⟨-, -, rfl⟩ := he
        exact ⟨[_], rfl⟩

/-- C10 on the client of the test and the empty queue. -/
theorem Dequeue_permit_balance_witness :
    (⟨7, newHighPerfSem 10000, [sysVsdMsg.zero], testConfig⟩ : MessageQueue).sem
      = testQueue.sem ∧
    List.count Event.acquire [Event.acquire, Event.sys (Call.msgrcv 7 1024 100 6144),
      Event.release] = 1 ∧
    List.count Event.release [Event.acquire, Event.sys (Call.msgrcv 7 1024 100 6144),
      Event.release] = 1 :=
  have h := (Dequeue_permit_balance sysv errnoText testQueue ⟨openSysV, []⟩).1 1 _ _ _
    (by decide) Dequeue_test_empty
  ⟨h.1, h.2.2.1, h.2.2.2⟩

end hhfifo
